import Mathlib

/-!
Verification development for the email-claim-detector repository.

The repository is a JavaScript pipeline that pulls messages from a mailbox,
classifies each one as a customer complaint via an LLM completion call, and
persists the classification in SQLite.  This file gives a shallow embedding
of the parts of the code the frozen claims are about:

* the response normalizer `parseAnalysisResult`
  (src/unnamed/part_001, classes BaseAIService and OpenAIService);
* the chunked concurrent dispatcher `chunkArray` and
  `analyzeEmailsConcurrently` (src/unnamed/part_001, class OpenAIService);
* the exclusion filter `loadExclusionList` and
  `shouldExcludeFromClaimDetection`
  (src/src/application/claimDetectionOrchestrator.js and
  src/unnamed/part_000, identical in both);
* the SQLite store operations (src/unnamed/part_002, class Database);
* the two orchestrator variants of `processEmails`:
  the inline sequential loop of
  src/src/application/claimDetectionOrchestrator.js (namespace
  `ClaimDetectionOrchestrator` below) and the concurrency-capable variant of
  src/unnamed/part_000 (namespace `ClaimDetectionOrchestratorAlt` below).

External collaborators (Graph API mail retrieval, the OpenAI HTTP client,
the local LLM process, timers) are modelled as explicit function parameters;
everything of the repository itself is translated from the source.
-/

namespace EmailClaimDetector

/-! ## JavaScript value model

JSON values as produced by `JSON.parse`.  JavaScript `undefined` (a missing
object field) is modelled by `Json.null`: for every operation the embedded
code performs on such a value (truthiness, `Array.isArray`, `parseInt`,
strict comparison with a string) `null` and `undefined` behave alike.

JSON numbers are modelled by their integer part (`Json.num`): the embedded
code only ever feeds numbers to `parseInt`, which truncates.  Fractional or
exponent-carrying literals are accepted by the parser but truncated; no
theorem below evaluates the parser on such a literal.
-/

inductive Json where
  | null : Json
  | bool : Bool → Json
  | num : Int → Json
  | str : String → Json
  | arr : List Json → Json
  | obj : List (String × Json) → Json
deriving Repr

/-- JavaScript `s.trim()`, computed on the character list. -/
def jsTrim (s : String) : String :=
  String.mk
    (((s.toList.dropWhile Char.isWhitespace).reverse.dropWhile
        Char.isWhitespace).reverse)

/-- JavaScript `s.toLowerCase()`, computed on the character list. -/
def jsToLower (s : String) : String :=
  String.mk (s.toList.map Char.toLower)

/-- Character-list splitter behind `jsSplitAt`: every separator occurrence
starts a new group, so `"@"` splits into two empty groups. -/
def splitChar (sep : Char) : List Char → List (List Char)
  | [] => [[]]
  | c :: rest =>
    match splitChar sep rest with
    | [] => [[]]
    | g :: gs => if c == sep then [] :: g :: gs else (c :: g) :: gs

/-- JavaScript `s.split(sep)` for a single-character separator. -/
def jsSplitAt (sep : Char) (s : String) : List String :=
  (splitChar sep s.toList).map String.mk

/-- JavaScript truthiness of a JSON value (arrays and objects are truthy). -/
def jsTruthy : Json → Bool
  | .null => false
  | .bool b => b
  | .num n => n != 0
  | .str s => s != ""
  | .arr _ => true
  | .obj _ => true

mutual
/-- JavaScript `String(v)` conversion for JSON values. -/
def jsToString : Json → String
  | .null => "null"
  | .bool b => if b then "true" else "false"
  | .num n => toString n
  | .str s => s
  | .arr l => String.intercalate "," (jsToStringElems l)
  | .obj _ => "[object Object]"

/-- Array elements under `Array.prototype.toString`; a null element prints
as the empty string. -/
def jsToStringElems : List Json → List String
  | [] => []
  | .null :: rest => "" :: jsToStringElems rest
  | j :: rest => jsToString j :: jsToStringElems rest
end

/-- Leading decimal integer of a string after optional whitespace and sign,
as JavaScript `parseInt` reads it (the hexadecimal `0x` prefix form is not
modelled; no input used below carries one).  `none` models `NaN`. -/
def leadingInt (s : String) : Option Int :=
  let cs := s.toList.dropWhile (fun c => c.isWhitespace)
  let (neg, cs) : Bool × List Char :=
    match cs with
    | '-' :: rest => (true, rest)
    | '+' :: rest => (false, rest)
    | rest => (false, rest)
  let digits := cs.takeWhile (fun c => c.isDigit)
  if digits.isEmpty then none
  else
    let n : Nat := digits.foldl (fun acc c => acc * 10 + (c.toNat - '0'.toNat)) 0
    some (if neg then -(n : Int) else (n : Int))

/-- JavaScript `parseInt(v) || 0` for a JSON value: convert to string, read
the leading integer, and fall back to `0` on `NaN` (and on `0` itself,
which the `|| 0` maps to `0` unchanged). -/
def jsParseIntOr0 (v : Json) : Int :=
  (leadingInt (jsToString v)).getD 0

/-- Object field access `parsed.k`: the last binding wins (as in
`JSON.parse` with duplicate keys); a missing field or a non-object yields
`Json.null` (modelling `undefined`). -/
def jsGet (j : Json) (k : String) : Json :=
  match j with
  | .obj kvs => ((kvs.filter (fun kv => kv.1 == k)).getLast?).elim Json.null Prod.snd
  | _ => .null

/-- JavaScript `v || ""`: keep a truthy value, replace a falsy one by the
empty string. -/
def jsOrEmptyStr (v : Json) : Json :=
  if jsTruthy v then v else .str ""

/-! ### A JSON parser modelling `JSON.parse`

The parser is fuel-indexed (the fuel bounds nesting depth; one unit per
opened bracket, so the length of the input suffices).  It accepts the JSON
grammar; numbers are truncated to their integer part as explained above.
On any failure it returns `none`, modelling the `SyntaxError` thrown by
`JSON.parse` and caught by the embedded code.
-/

/-- Drop JSON whitespace. -/
def skipWs (cs : List Char) : List Char :=
  cs.dropWhile (fun c => c == ' ' || c == '\t' || c == '\n' || c == '\r')

/-- Decode one string escape; returns the character and remaining input.
The `u` form reads four hex digits. -/
def decodeEsc : Char → List Char → Option (Char × List Char)
  | '"', rest => some ('"', rest)
  | '\\', rest => some ('\\', rest)
  | '/', rest => some ('/', rest)
  | 'b', rest => some ('\x08', rest)
  | 'f', rest => some ('\x0c', rest)
  | 'n', rest => some ('\n', rest)
  | 'r', rest => some ('\r', rest)
  | 't', rest => some ('\t', rest)
  | 'u', rest =>
    match rest with
    | a :: b :: c :: d :: rest2 =>
      let hex? (x : Char) : Option Nat :=
        if x.isDigit then some (x.toNat - '0'.toNat)
        else if 'a' ≤ x && x ≤ 'f' then some (x.toNat - 'a'.toNat + 10)
        else if 'A' ≤ x && x ≤ 'F' then some (x.toNat - 'A'.toNat + 10)
        else none
      match hex? a, hex? b, hex? c, hex? d with
      | some ha, some hb, some hc, some hd =>
        let n := ((ha * 16 + hb) * 16 + hc) * 16 + hd
        some (Char.ofNat n, rest2)
      | _, _, _, _ => none
    | _ => none
  | _, _ => none

/-- Parse the body of a JSON string literal (the opening quote already
consumed), fuel-indexed by the remaining input length. -/
def parseStrBody : Nat → List Char → Option (String × List Char)
  | 0, _ => none
  | _ + 1, [] => none
  | _ + 1, '"' :: rest => some ("", rest)
  | fuel + 1, '\\' :: rest =>
    match rest with
    | [] => none
    | e :: rest2 => do
      let (c, rest3) ← decodeEsc e rest2
      let (s, rest4) ← parseStrBody fuel rest3
      pure (String.mk (c :: s.toList), rest4)
  | fuel + 1, c :: rest => do
    let (s, rest2) ← parseStrBody fuel rest
    pure (String.mk (c :: s.toList), rest2)

/-- Parse a JSON number, returning its integer part (fraction and exponent
digits are consumed and discarded). -/
def parseNum (cs : List Char) : Option (Json × List Char) :=
  let (neg, cs1) : Bool × List Char :=
    match cs with
    | '-' :: rest => (true, rest)
    | rest => (false, rest)
  let digits := cs1.takeWhile (fun c => c.isDigit)
  if digits.isEmpty then none
  else
    let n : Nat := digits.foldl (fun acc c => acc * 10 + (c.toNat - '0'.toNat)) 0
    let rest := cs1.dropWhile (fun c => c.isDigit)
    let rest :=
      match rest with
      | '.' :: r => r.dropWhile (fun c => c.isDigit)
      | r => r
    let rest :=
      match rest with
      | 'e' :: r | 'E' :: r =>
        (match r with
         | '+' :: r2 => r2.dropWhile (fun c => c.isDigit)
         | '-' :: r2 => r2.dropWhile (fun c => c.isDigit)
         | r2 => r2.dropWhile (fun c => c.isDigit))
      | r => r
    some (.num (if neg then -(n : Int) else (n : Int)), rest)

mutual
/-- Parse one JSON value. -/
def parseVal : Nat → List Char → Option (Json × List Char)
  | 0, _ => none
  | fuel + 1, cs =>
    match skipWs cs with
    | 'n' :: 'u' :: 'l' :: 'l' :: rest => some (.null, rest)
    | 't' :: 'r' :: 'u' :: 'e' :: rest => some (.bool true, rest)
    | 'f' :: 'a' :: 'l' :: 's' :: 'e' :: rest => some (.bool false, rest)
    | '"' :: rest => do
      let (s, rest2) ← parseStrBody (rest.length + 1) rest
      pure (.str s, rest2)
    | '[' :: rest =>
      (match skipWs rest with
       | ']' :: rest2 => some (.arr [], rest2)
       | rest2 => do
         let (items, rest3) ← parseItems fuel rest2
         pure (.arr items, rest3))
    | '{' :: rest =>
      (match skipWs rest with
       | '}' :: rest2 => some (.obj [], rest2)
       | rest2 => do
         let (kvs, rest3) ← parseMembers fuel rest2
         pure (.obj kvs, rest3))
    | rest => parseNum rest

/-- Parse a nonempty comma-separated list of array items up to the closing
bracket. -/
def parseItems : Nat → List Char → Option (List Json × List Char)
  | 0, _ => none
  | fuel + 1, cs => do
    let (v, rest) ← parseVal fuel cs
    match skipWs rest with
    | ',' :: rest2 => do
      let (vs, rest3) ← parseItems fuel rest2
      pure (v :: vs, rest3)
    | ']' :: rest2 => pure ([v], rest2)
    | _ => none

/-- Parse a nonempty comma-separated list of object members up to the
closing brace. -/
def parseMembers : Nat → List Char → Option (List (String × Json) × List Char)
  | 0, _ => none
  | fuel + 1, cs =>
    match skipWs cs with
    | '"' :: rest => do
      let (k, rest2) ← parseStrBody (rest.length + 1) rest
      match skipWs rest2 with
      | ':' :: rest3 => do
        let (v, rest4) ← parseVal fuel rest3
        match skipWs rest4 with
        | ',' :: rest5 => do
          let (kvs, rest6) ← parseMembers fuel rest5
          pure ((k, v) :: kvs, rest6)
        | '}' :: rest5 => pure ([(k, v)], rest5)
        | _ => none
      | _ => none
    | _ => none
end

/-- Model of `JSON.parse`: parse one value and require only whitespace to
remain.  `none` models a thrown `SyntaxError`. -/
def jsonParse (s : String) : Option Json := do
  let (v, rest) ← parseVal (s.length + 1) s.toList
  if (skipWs rest).isEmpty then pure v else none

/-! ## ClassificationResult and the response normalizer

`AnalysisResult` is the JavaScript object literal shape built by
`parseAnalysisResult` and by the orchestrator (the synthetic excluded
result and the error marker of `analyzeEmailsConcurrently`).  Fields the
code only sets to strings are typed `String`; `reason` and `summary` are
typed `Json` because the success branch passes the parsed JSON value
through (`parsed.reason || ""`), whatever its runtime type.  `rawResponse`,
`parseError` and `error` are optional: object literals that omit them leave
the property `undefined`, modelled by `none`.
-/

structure AnalysisResult where
  isClaim : Bool
  confidence : Int
  category : String
  severity : String
  reason : Json
  keywords : List Json
  summary : Json
  rawResponse : Option String := none
  parseError : Option String := none
  error : Option String := none
deriving Repr

/-- The fixed category set of `parseAnalysisResult`
(src/unnamed/part_001 lines 267 and 484). -/
def validCategories : List String :=
  ["answer quality", "answer delay", "point less conversation",
   "communication", "other", "not_claim"]

/-- The fixed severity set of `parseAnalysisResult`
(src/unnamed/part_001 lines 268 and 485). -/
def validSeverities : List String := ["low", "medium", "high"]

/-- Model of `result.match(/\x7b[\s\S]*\x7d/)`: the greedy regular
expression yields the substring from the first opening brace to the last
closing brace, provided a closing brace occurs after the first opening
one; otherwise the match is `null`. -/
def jsonMatchSpan (s : String) : Option String :=
  let cs := s.toList
  match cs.findIdx? (fun c => c == '{') with
  | none => none
  | some i =>
    match (cs.reverse.findIdx? (fun c => c == '}')) with
    | none => none
    | some rj =>
      let j := cs.length - 1 - rj
      if i < j then some (String.mk ((cs.drop i).take (j - i + 1))) else none

/-- Shared success-branch field coercions of both `parseAnalysisResult`
implementations (src/unnamed/part_001 lines 281-290 and 498-507): truthy
coercion of `isClaim`, `parseInt`-with-clamp of `confidence`, membership
filtering of `category` and `severity`, fallback-to-empty of `reason` and
`summary`, `Array.isArray` filtering of `keywords`. -/
def processedResult (parsed : Json) (result : String) : AnalysisResult :=
  { isClaim := jsTruthy (jsGet parsed "isClaim")
    confidence := min (max (jsParseIntOr0 (jsGet parsed "confidence")) 0) 100
    category :=
      match jsGet parsed "category" with
      | .str c => if c ∈ validCategories then c else "other"
      | _ => "other"
    severity :=
      match jsGet parsed "severity" with
      | .str c => if c ∈ validSeverities then c else "medium"
      | _ => "medium"
    reason := jsOrEmptyStr (jsGet parsed "reason")
    keywords :=
      match jsGet parsed "keywords" with
      | .arr l => l
      | _ => []
    summary := jsOrEmptyStr (jsGet parsed "summary")
    rawResponse := some result }

namespace BaseAIService

/-- BaseAIService.parseAnalysisResult (src/unnamed/part_001 lines
438-573).  The debug logging is pure tracing and is not modelled.  The
message attached to a `JSON.parse` failure comes from the JavaScript
engine; its wording is environment-specific and is modelled by the fixed
text "SyntaxError".  The outermost catch of the source (lines 554-572) is
unreachable in this pure model, whose operations are all total. -/
def parseAnalysisResult (result : String) : AnalysisResult :=
  if jsTrim result == "" then
    { isClaim := false, confidence := 0, category := "other",
      severity := "medium",
      reason := .str "AIから空のレスポンスが返されました",
      keywords := [], summary := .str "",
      rawResponse := some result,
      parseError := some "Empty or null response" }
  else
    match jsonMatchSpan result with
    | some span =>
      match jsonParse span with
      | some parsed => processedResult parsed result
      | none =>
        { isClaim := false, confidence := 0, category := "other",
          severity := "medium",
          reason := .str "JSON解析エラー: SyntaxError",
          keywords := [], summary := .str "",
          rawResponse := some result,
          parseError := some "JSON parse failed: SyntaxError" }
    | none =>
      { isClaim := false, confidence := 0, category := "other",
        severity := "medium",
        reason := .str "AIレスポンスにJSON構造が見つかりませんでした",
        keywords := [], summary := .str "",
        rawResponse := some result,
        parseError := some "No JSON structure found in response" }

end BaseAIService

namespace OpenAIService

/-- OpenAIService.parseAnalysisResult (src/unnamed/part_001 lines
221-356): identical control flow and coercions as the base class; only the
Japanese reason texts differ. -/
def parseAnalysisResult (result : String) : AnalysisResult :=
  if jsTrim result == "" then
    { isClaim := false, confidence := 0, category := "other",
      severity := "medium",
      reason := .str "Azure OpenAIから空のレスポンスが返されました",
      keywords := [], summary := .str "",
      rawResponse := some result,
      parseError := some "Empty or null response" }
  else
    match jsonMatchSpan result with
    | some span =>
      match jsonParse span with
      | some parsed => processedResult parsed result
      | none =>
        { isClaim := false, confidence := 0, category := "other",
          severity := "medium",
          reason := .str "JSON解析エラー: SyntaxError",
          keywords := [], summary := .str "",
          rawResponse := some result,
          parseError := some "JSON parse failed: SyntaxError" }
    | none =>
      { isClaim := false, confidence := 0, category := "other",
        severity := "medium",
        reason := .str "Azure OpenAIレスポンスにJSON構造が見つかりませんでした",
        keywords := [], summary := .str "",
        rawResponse := some result,
        parseError := some "No JSON structure found in response" }

end OpenAIService

/-! ## The analysis dispatcher

`analyzeEmailsConcurrently` (src/unnamed/part_001 lines 40-104) receives
the filtered batch built by `processConcurrently`: each entry carries the
SQLite row id of the saved email (`id`), the Exchange external id
(`emailId`), and the strings fed to the completion call.  All fields are
set by the orchestrator, so they are plain strings here; the defensive
`|| ""` defaults the source applies to them are identities on strings.

The completion call `analyzeEmailForClaim` is a network call and is
modelled as a function parameter returning `Except String AnalysisResult`
(`Except.error` models a thrown exception, whose message string is
carried).  Awaiting a chunk of promises (`Promise.all`) resolves in
dispatch order under the single-threaded model, so a chunk contributes its
results in input order.
-/

structure UnprocessedEmail where
  id : Nat
  emailId : String
  subject : String
  bodyContent : String
  senderEmail : String
  senderName : String
deriving Repr

/-- A JavaScript id value as used for the claim row key: either a SQLite
row id (number) or, through the fallback `email.id || email.emailId`, the
external id string.  (Fields holding `email.id` are numbers; `0` is
falsy.) -/
inductive JsId where
  | rowId : Nat → JsId
  | external : String → JsId
deriving Repr, DecidableEq

/-- The key `email.id || email.emailId` of an analysis result pair
(src/unnamed/part_001 lines 68 and 74). -/
def jsIdOf (e : UnprocessedEmail) : JsId :=
  if e.id ≠ 0 then .rowId e.id else .external e.emailId

structure AnalysisPair where
  emailId : JsId
  result : AnalysisResult
deriving Repr

/-- The type of the stubbed completion call: email text, subject, sender
string to classification outcome. -/
def Analyze : Type := String → String → String → Except String AnalysisResult

namespace OpenAIService

/-- OpenAIService.chunkArray (src/unnamed/part_001 lines 112-118): the
loop `for (i = 0; i < length; i += size)` slicing `size`-long chunks.  The
source is only invoked with `size ≥ 1` (`setConcurrentLimit` clamps with
`Math.max(1, ...)`); the `size = 0` guard below returns `[]` in place of
the nonterminating JavaScript loop. -/
def chunkArray (l : List α) (size : Nat) : List (List α) :=
  if l.isEmpty || size == 0 then []
  else l.take size :: chunkArray (l.drop size) size
termination_by l.length
decreasing_by
  rename_i h
  simp only [Bool.or_eq_true, beq_iff_eq, List.isEmpty_iff, not_or] at h
  have : 0 < l.length := List.length_pos.mpr h.1
  have : 0 < size := Nat.pos_of_ne_zero h.2
  simp only [List.length_drop]
  omega

/-- One email of a chunk (src/unnamed/part_001 lines 56-87): call the
completion service; a thrown error is caught and converted into an error
marker result rather than failing the sibling calls. -/
def analyzeOne (analyze : Analyze) (e : UnprocessedEmail) : AnalysisPair :=
  match analyze e.bodyContent e.subject
      (e.senderName ++ " <" ++ e.senderEmail ++ ">") with
  | .ok r => ⟨jsIdOf e, r⟩
  | .error m =>
    ⟨jsIdOf e,
     { isClaim := false, confidence := 0, category := "other",
       severity := "medium", reason := .str ("分析エラー: " ++ m),
       keywords := [], summary := .str "", error := some m }⟩

/-- OpenAIService.analyzeEmailsConcurrently (src/unnamed/part_001 lines
40-104): empty input short-circuits to `[]`; otherwise the input is
chunked by the concurrency limit, each chunk settles completely before the
next is dispatched, and the settled results are appended in order.  The
progress logging and the inter-chunk delay are pure timing and are not
modelled. -/
def analyzeEmailsConcurrently (analyze : Analyze) (limit : Nat)
    (emails : List UnprocessedEmail) : List AnalysisPair :=
  if emails.isEmpty then []
  else
    (chunkArray emails limit).foldl
      (fun results chunk => results ++ chunk.map (analyzeOne analyze)) []

end OpenAIService

/-! ## The exclusion filter

`loadExclusionList` and `shouldExcludeFromClaimDetection` appear, line for
line identical, in src/src/application/claimDetectionOrchestrator.js
(lines 275-320) and src/unnamed/part_000 (lines 218-263); a single model
serves both orchestrators.

A configured subject pattern is compiled per call with
`new RegExp(pattern, "i")` inside a try/catch.  Regular-expression
compilation and matching are engine functionality; a pattern is therefore
modelled as either `some f` — it compiles, and `f` is its
(case-insensitive) match function on subjects — or `none`: the constructor
throws and the source skips the pattern with a warning.
-/

def SubjectPattern : Type := Option (String → Bool)

structure ExclusionConfig where
  emails : List String
  domains : List String
  subjectPatterns : List SubjectPattern

/-- The parsed exclusion file: a JSON object whose
`excludeFromClaimDetection` property may be absent. -/
structure ExclusionOuter where
  excludeFromClaimDetection : Option ExclusionConfig

/-- The `this.exclusionList` field: `none` models the initial `null`. -/
def ExclusionList : Type := Option ExclusionOuter

/-- The outcome of reading src/config/exclusionList.json, modelling the
file system and `JSON.parse`: the file is absent, reading it throws,
parsing it throws, or it parses to a configuration object. -/
inductive LoadOutcome where
  | missing : LoadOutcome
  | readFailed : String → LoadOutcome
  | parseFailed : String → LoadOutcome
  | loaded : ExclusionOuter → LoadOutcome

/-- The empty configuration both fallback branches of `loadExclusionList`
assign. -/
def emptyExclusionConfig : ExclusionOuter :=
  ⟨some ⟨[], [], []⟩⟩

/-- loadExclusionList (claimDetectionOrchestrator.js lines 275-290 and
part_000 lines 218-233): a missing file and any read or parse error all
resolve locally to the empty configuration; a parsed file is stored as
is. -/
def loadExclusionList : LoadOutcome → ExclusionList
  | .missing => some emptyExclusionConfig
  | .readFailed _ => some emptyExclusionConfig
  | .parseFailed _ => some emptyExclusionConfig
  | .loaded o => some o

/-- shouldExcludeFromClaimDetection (claimDetectionOrchestrator.js lines
292-320 and part_000 lines 235-263).  `emails.includes(sender.toLowerCase())`
lowercases only the sender, so configured entries are compared verbatim;
the domain is `split("@")[1]`, lowercased, and must be truthy (nonempty);
a malformed pattern is skipped. -/
def shouldExcludeFromClaimDetection (xl : ExclusionList)
    (senderEmail subject : String) : Bool :=
  match xl with
  | none => false
  | some outer =>
    match outer.excludeFromClaimDetection with
    | none => false
    | some cfg =>
      if cfg.emails.contains (jsToLower senderEmail) then true
      else
        let domain? := ((jsSplitAt '@' senderEmail).get? 1).map jsToLower
        match domain? with
        | some domain =>
          if domain != "" && cfg.domains.contains domain then true
          else cfg.subjectPatterns.any (fun p => (p.map (· subject)).getD false)
        | none =>
          cfg.subjectPatterns.any (fun p => (p.map (· subject)).getD false)

/-- Modelled from the spec (section 4.2), restated with the correction the
code forces: the sender address, lowercased, is a member of the configured
exact-address list; or the portion of the sender address between the first
and second at-sign, lowercased, is nonempty and a member of the configured
domain list; or some well-formed configured pattern matches the subject.
Used as the comparison point for the refinement claim about the filter. -/
def specShouldExclude (cfg : ExclusionConfig)
    (senderEmail subject : String) : Bool :=
  decide (jsToLower senderEmail ∈ cfg.emails)
  || (match (jsSplitAt '@' senderEmail).get? 1 with
      | some d => decide (jsToLower d ≠ "" ∧ jsToLower d ∈ cfg.domains)
      | none => false)
  || decide (∃ p ∈ cfg.subjectPatterns, ∃ f, p = some f ∧ f subject = true)

/-! ## The store

Class Database (src/unnamed/part_002, lines 389-734) over SQLite.  The
three tables are lists of rows; autoincrement row ids of the emails table
are tracked by `nextEmailRowId` (claim and run-log row ids play no role in
any claim and are not tracked).  `CURRENT_TIMESTAMP` defaults are supplied
by an explicit clock argument `now`.
-/

structure EmailRow where
  rowid : Nat
  emailId : String
  subject : String
  senderEmail : String
  senderName : String
  receivedDateTime : Nat
  bodyContent : String
  createdAt : Nat
deriving Repr, DecidableEq

structure ClaimRow where
  emailKey : JsId
  result : AnalysisResult
deriving Repr

structure RunRow where
  startedAt : Nat
  completedAt : Nat
  emailsProcessed : Nat
  claimsDetected : Nat
  errors : Option String
  status : String
deriving Repr

structure DB where
  emails : List EmailRow
  nextEmailRowId : Nat
  claims : List ClaimRow
  runLog : List RunRow
deriving Repr

/-- A database with empty tables, as created by `createTables`. -/
def DB.empty : DB := ⟨[], 1, [], []⟩

/-- Message detail as returned by `exchangeService.getEmailDetails`; the
orchestrator assigns `bodyContent` before saving
(`emailDetails.bodyContent = emailText`). -/
structure EmailDetails where
  id : String
  subject : String
  fromAddress : Option String
  fromName : Option String
  internetMessageId : String
  receivedDateTime : Nat
  bodyContent : String := ""
deriving Repr

namespace Database

/-- Database.isEmailProcessed (part_002 lines 713-722): one row with this
external id exists. -/
def isEmailProcessed (db : DB) (emailId : String) : Bool :=
  db.emails.any (fun e => e.emailId == emailId)

/-- Database.saveEmail (part_002 lines 488-513): INSERT OR IGNORE keyed on
the unique external id, resolving to `this.lastID`.  When the insert is
ignored the returned id is not the id of the existing row; that case is
modelled as `0` (both call sites guard with `isEmailProcessed`, so it is
never reached in the runs modelled here). -/
def saveEmail (db : DB) (now : Nat) (email : EmailDetails) : DB × Nat :=
  if db.emails.any (fun e => e.emailId == email.id) then (db, 0)
  else
    ({ db with
        emails := db.emails ++
          [{ rowid := db.nextEmailRowId
             emailId := email.id
             subject := email.subject
             senderEmail := email.fromAddress.getD ""
             senderName := email.fromName.getD ""
             receivedDateTime := email.receivedDateTime
             bodyContent := email.bodyContent
             createdAt := now }]
        nextEmailRowId := db.nextEmailRowId + 1 },
     db.nextEmailRowId)

/-- Database.saveClaim (part_002 lines 515-541): plain insert of the
classification keyed to the email id the caller passes. -/
def saveClaim (db : DB) (key : JsId) (r : AnalysisResult) : DB :=
  { db with claims := db.claims ++ [⟨key, r⟩] }

/-- Database.logProcessingRun (part_002 lines 671-694):
`status = errors ? "error" : "success"` — note the empty string is falsy. -/
def logProcessingRun (db : DB) (startedAt completedAt : Nat)
    (emailsProcessed claimsDetected : Nat) (errors : Option String) : DB :=
  let status :=
    match errors with
    | some e => if e == "" then "success" else "error"
    | none => "success"
  { db with
      runLog := db.runLog ++
        [⟨startedAt, completedAt, emailsProcessed, claimsDetected, errors,
          status⟩] }

/-- Database.getLastProcessingTime (part_002 lines 696-711): completion
time of the latest successful run (ORDER BY DESC LIMIT 1 is the
maximum). -/
def getLastProcessingTime (db : DB) : Option Nat :=
  ((db.runLog.filter (fun r => r.status == "success")).map
    (fun r => r.completedAt)).max?

/-- Query filters of Database.getClaims; absent properties are `none`. -/
structure ClaimFilters where
  category : Option String := none
  severity : Option String := none
  dateFrom : Option Nat := none
  dateTo : Option Nat := none
  confidence : Option Int := none
  limit : Option Nat := none

/-- JavaScript truthiness of an optional string option. -/
def strOptTruthy : Option String → Bool
  | some s => s != ""
  | none => false

/-- JavaScript truthiness of an optional numeric option. -/
def natOptTruthy : Option Nat → Bool
  | some n => n != 0
  | none => false

/-- JavaScript truthiness of an optional integer option. -/
def intOptTruthy : Option Int → Bool
  | some n => n != 0
  | none => false

/-- Database.getClaims (part_002 lines 583-630): inner join of claims with
emails, fixed condition `c.is_claim = 1`, optional filters added for
truthy option values, optional LIMIT.  The ORDER BY on the received time
is not modelled (no claim depends on the returned order), so LIMIT takes a
prefix in insertion order. -/
def getClaims (f : ClaimFilters) (db : DB) : List (EmailRow × ClaimRow) :=
  let joined := db.claims.filterMap (fun c =>
    (db.emails.find? (fun e => JsId.rowId e.rowid == c.emailKey)).map
      (fun e => (e, c)))
  let rows := joined.filter (fun ec =>
    ec.2.result.isClaim
    && (match f.category with
        | some s => if s != "" then ec.2.result.category == s else true
        | none => true)
    && (match f.severity with
        | some s => if s != "" then ec.2.result.severity == s else true
        | none => true)
    && (match f.dateFrom with
        | some t => if t != 0 then decide (t ≤ ec.1.receivedDateTime) else true
        | none => true)
    && (match f.dateTo with
        | some t => if t != 0 then decide (ec.1.receivedDateTime ≤ t) else true
        | none => true)
    && (match f.confidence with
        | some c => if c != 0 then decide (c ≤ ec.2.result.confidence) else true
        | none => true))
  match f.limit with
  | some n => if n != 0 then rows.take n else rows
  | none => rows

end Database

/-! ## The orchestrators

Shared surface of both orchestrator classes: message summaries from
`getEmails`, run options, the mail-source stub functions, and the mutable
orchestrator fields.  External calls that can throw return
`Except String`, the error carrying the exception message.
-/

structure SummaryEmail where
  id : String
  subject : String
  mailboxSource : Option String := none
deriving Repr

structure ProcessOptions where
  days : Option Nat := none
  hours : Option Nat := none
  startDate : Option Nat := none
  endDate : Option Nat := none
  useLocalLLM : Bool := false
  emailAddress : Option String := none
  concurrency : Option Nat := none
  debug : Bool := false

/-- The mail-source collaborator (class ExchangeService): message listing
with (last-processing-time, date-range, mailbox) arguments as the source
passes them, detail fetch, and the HTML-stripping text extraction. -/
structure MailStubs where
  getEmails : Option Nat → Option Unit → Option String →
    Except String (List SummaryEmail)
  getEmailsByDateRange : Except String (List SummaryEmail)
  getEmailDetails : String → Option String → Except String EmailDetails
  extractTextFromEmail : EmailDetails → String

/-- Orchestrator instance fields touched by `processEmails`: the
re-entrancy flag, the loaded exclusion list, the OpenAI service
concurrency limit (constructor default 3), and the store. -/
structure OrchState where
  isRunning : Bool := false
  exclusionList : ExclusionList := none
  concurrentLimit : Nat := 3
  db : DB := DB.empty

/-- The value of `processEmails` on completion. -/
structure RunResult where
  emailsProcessed : Nat
  claimsDetected : Nat
deriving Repr, DecidableEq

/-- JavaScript `emailAddress || email.mailboxSource` (the mailbox argument
of `getEmailDetails`): the empty string is falsy. -/
def jsOrStrOpt : Option String → Option String → Option String
  | some s, fallback => if s != "" then some s else fallback
  | none, fallback => fallback

/-- Truthiness test `days || hours || startDate || endDate` selecting the
date-range strategies. -/
def hasDateOptions (o : ProcessOptions) : Bool :=
  Database.natOptTruthy o.days || Database.natOptTruthy o.hours
    || Database.natOptTruthy o.startDate || Database.natOptTruthy o.endDate

/-- The synthetic result persisted for an excluded email
(claimDetectionOrchestrator.js lines 122-130, part_000 lines 288-296 and
360-368, identical at all three sites). -/
def excludedResult : AnalysisResult :=
  { isClaim := false, confidence := 0, category := "excluded",
    severity := "none",
    reason := .str
      "Email excluded from claim detection due to sender/subject filters",
    keywords := [], summary := .str "Excluded from analysis" }

/-- The source-selection step shared verbatim by both `processEmails`
variants (claimDetectionOrchestrator.js lines 61-92, part_000 lines
68-99): an explicit mailbox takes precedence, then an explicit date range,
then incremental retrieval since the last successful run. -/
def selectEmails (mail : MailStubs) (o : ProcessOptions) (db : DB) :
    Except String (List SummaryEmail) :=
  if Database.strOptTruthy o.emailAddress then
    if hasDateOptions o then mail.getEmails none (some ()) o.emailAddress
    else mail.getEmails (Database.getLastProcessingTime db) none
      o.emailAddress
  else if hasDateOptions o then mail.getEmailsByDateRange
  else mail.getEmails (Database.getLastProcessingTime db) none none

namespace ClaimDetectionOrchestrator

/-!
The orchestrator of src/src/application/claimDetectionOrchestrator.js:
`processEmails` with the inline per-message loop (lines 34-198).  The loop
accumulator carries the store, the accumulated error string, and the two
counters `emailsProcessed` and `claimsDetected`.
-/

/-- The error accumulation
`errors = errors ? errors + "; " + m : m` (line 174); an empty
accumulated string is falsy and is replaced rather than extended. -/
def accumErr : Option String → String → Option String
  | none, m => some m
  | some e, m => if e == "" then some m else some (e ++ "; " ++ m)

/-- One iteration of the per-message loop (lines 101-176).  A thrown
detail-fetch or analysis error is caught at the message boundary and
accumulated; the saved-email row survives a later analysis failure.  The
inter-message delay is pure timing and is not modelled. -/
def emailStep (mail : MailStubs) (aLocal aOpenAI : Analyze)
    (xl : ExclusionList) (useLocal : Bool) (mailbox : Option String)
    (now : Nat) (acc : DB × Option String × Nat × Nat) (e : SummaryEmail) :
    DB × Option String × Nat × Nat :=
  let (db, errs, processed, claimsDet) := acc
  if Database.isEmailProcessed db e.id then acc
  else
    match mail.getEmailDetails e.id (jsOrStrOpt mailbox e.mailboxSource) with
    | .error m => (db, accumErr errs m, processed, claimsDet)
    | .ok d =>
      let emailText := mail.extractTextFromEmail d
      let senderEmail := d.fromAddress.getD ""
      let senderName := d.fromName.getD ""
      let (db1, savedEmailId) :=
        Database.saveEmail db now { d with bodyContent := emailText }
      if shouldExcludeFromClaimDetection xl senderEmail d.subject then
        (Database.saveClaim db1 (.rowId savedEmailId) excludedResult,
         errs, processed + 1, claimsDet)
      else if jsTrim emailText != "" then
        match (if useLocal then aLocal else aOpenAI) emailText d.subject
            (senderName ++ " <" ++ senderEmail ++ ">") with
        | .error m => (db1, accumErr errs m, processed, claimsDet)
        | .ok r =>
          (Database.saveClaim db1 (.rowId savedEmailId) r, errs,
           processed + 1, claimsDet + (if r.isClaim then 1 else 0))
      else (db1, errs, processed + 1, claimsDet)

/-- ClaimDetectionOrchestrator.processEmails
(src/src/application/claimDetectionOrchestrator.js lines 34-198).
Re-entrancy guard first (returns undefined, modelled `.ok none`); a local
LLM startup failure throws before the try/finally; inside the try the
source selection runs, an empty batch returns early, otherwise the
per-message loop runs; the finally block always writes one run record and
clears the flag; a selection error is recorded and re-raised. -/
def processEmails (mail : MailStubs) (aLocal aOpenAI : Analyze)
    (startServer : Bool) (o : ProcessOptions) (now : Nat) (st : OrchState) :
    Except String (Option RunResult) × OrchState :=
  if st.isRunning then (.ok none, st)
  else if o.useLocalLLM && !startServer then
    (.error "Failed to start ONNX NPU Server", st)
  else
    let st1 := { st with isRunning := true }
    match selectEmails mail o st1.db with
    | .error m =>
      let db2 := Database.logProcessingRun st1.db now now 0 0 (some m)
      (.error m, { st1 with isRunning := false, db := db2 })
    | .ok emails =>
      if emails.isEmpty then
        let db2 := Database.logProcessingRun st1.db now now 0 0 none
        (.ok (some ⟨0, 0⟩), { st1 with isRunning := false, db := db2 })
      else
        let (db1, errs, processed, claimsDet) :=
          emails.foldl
            (emailStep mail aLocal aOpenAI st1.exclusionList o.useLocalLLM
              o.emailAddress now)
            (st1.db, none, 0, 0)
        let db2 :=
          Database.logProcessingRun db1 now now processed claimsDet errs
        (.ok (some ⟨processed, claimsDet⟩),
         { st1 with isRunning := false, db := db2 })

/-- ClaimDetectionOrchestrator.getClaims (claimDetectionOrchestrator.js
lines 200-224): row-to-object mapping over `Database.getClaims`.  The
claims-table autoincrement id is not modelled (see `ClaimRow`);
`Boolean(row.is_claim)` maps the stored 1/0 back to the stored boolean;
`JSON.parse(row.keywords || "[]")` inverts the `JSON.stringify` done by
`saveClaim` and is modelled as that roundtrip identity. -/
structure ClaimView where
  emailId : JsId
  subject : String
  senderEmail : String
  senderName : String
  receivedDateTime : Nat
  bodyContent : String
  isClaim : Bool
  confidence : Int
  category : String
  severity : String
  reason : Json
  keywords : List Json
  summary : Json

/-- The mapping applied to each joined row by `getClaims`. -/
def mapClaimRow (ec : EmailRow × ClaimRow) : ClaimView :=
  { emailId := ec.2.emailKey
    subject := ec.1.subject
    senderEmail := ec.1.senderEmail
    senderName := ec.1.senderName
    receivedDateTime := ec.1.receivedDateTime
    bodyContent := ec.1.bodyContent
    isClaim := ec.2.result.isClaim
    confidence := ec.2.result.confidence
    category := ec.2.result.category
    severity := ec.2.result.severity
    reason := ec.2.result.reason
    keywords := ec.2.result.keywords
    summary := ec.2.result.summary }

/-- The `getClaims` operation exposed to the CLI. -/
def getClaims (f : Database.ClaimFilters) (db : DB) : List ClaimView :=
  (Database.getClaims f db).map mapClaimRow

end ClaimDetectionOrchestrator

namespace ClaimDetectionOrchestratorAlt

/-!
The concurrency-capable orchestrator variant of src/unnamed/part_000:
`processEmails` (lines 34-141) delegates to `processSequentially` (lines
336-411) or `processConcurrently` (lines 268-331) and recomputes the run
counters by re-querying the store for rows created during the run.
-/

/-- One iteration of processSequentially (part_000 lines 339-410).  The
per-message catch (lines 407-409) only logs: unlike the other orchestrator
it does not accumulate the message into the run error string. -/
def seqStep (mail : MailStubs) (aLocal aOpenAI : Analyze)
    (xl : ExclusionList) (useLocal : Bool) (mailbox : Option String)
    (now : Nat) (db : DB) (e : SummaryEmail) : DB :=
  if Database.isEmailProcessed db e.id then db
  else
    match mail.getEmailDetails e.id (jsOrStrOpt mailbox e.mailboxSource) with
    | .error _ => db
    | .ok d =>
      let emailText := mail.extractTextFromEmail d
      let senderEmail := d.fromAddress.getD ""
      let senderName := d.fromName.getD ""
      let (db1, savedEmailId) :=
        Database.saveEmail db now { d with bodyContent := emailText }
      if shouldExcludeFromClaimDetection xl senderEmail d.subject then
        Database.saveClaim db1 (.rowId savedEmailId) excludedResult
      else if jsTrim emailText != "" then
        match (if useLocal then aLocal else aOpenAI) emailText d.subject
            (senderName ++ " <" ++ senderEmail ++ ">") with
        | .error _ => db1
        | .ok r => Database.saveClaim db1 (.rowId savedEmailId) r
      else db1

/-- processSequentially (part_000 lines 336-411). -/
def processSequentially (mail : MailStubs) (aLocal aOpenAI : Analyze)
    (xl : ExclusionList) (useLocal : Bool) (mailbox : Option String)
    (now : Nat) (emails : List SummaryEmail) (db : DB) : DB :=
  emails.foldl (seqStep mail aLocal aOpenAI xl useLocal mailbox now) db

/-- The unprocessed-email filtering loop of processConcurrently (part_000
lines 272-309): dedup, detail fetch, save, exclusion check, and collection
of the analysis candidates.  The loop has no per-message catch, so a
detail-fetch error aborts it, keeping the store mutations made so far (the
third component carries the pending exception). -/
def concFetchLoop (mail : MailStubs) (xl : ExclusionList)
    (mailbox : Option String) (now : Nat) :
    List SummaryEmail → DB → List UnprocessedEmail →
    DB × List UnprocessedEmail × Option String
  | [], db, acc => (db, acc, none)
  | e :: rest, db, acc =>
    if Database.isEmailProcessed db e.id then
      concFetchLoop mail xl mailbox now rest db acc
    else
      match mail.getEmailDetails e.id (jsOrStrOpt mailbox e.mailboxSource) with
      | .error m => (db, acc, some m)
      | .ok d =>
        let emailText := mail.extractTextFromEmail d
        let senderEmail := d.fromAddress.getD ""
        let senderName := d.fromName.getD ""
        let (db1, savedEmailId) :=
          Database.saveEmail db now { d with bodyContent := emailText }
        if shouldExcludeFromClaimDetection xl senderEmail d.subject then
          concFetchLoop mail xl mailbox now rest
            (Database.saveClaim db1 (.rowId savedEmailId) excludedResult) acc
        else if jsTrim emailText != "" then
          concFetchLoop mail xl mailbox now rest db1
            (acc ++ [{ id := savedEmailId
                       emailId := e.id
                       subject := d.subject
                       bodyContent := emailText
                       senderEmail := senderEmail
                       senderName := senderName }])
        else concFetchLoop mail xl mailbox now rest db1 acc

/-- processConcurrently (part_000 lines 268-331): filter to unprocessed
candidates, dispatch them through `analyzeEmailsConcurrently`, persist
every returned pair.  The second component is the exception escaping the
method, if any. -/
def processConcurrently (mail : MailStubs) (aOpenAI : Analyze)
    (xl : ExclusionList) (limit : Nat) (mailbox : Option String)
    (now : Nat) (emails : List SummaryEmail) (db : DB) :
    DB × Option String :=
  match concFetchLoop mail xl mailbox now emails db [] with
  | (db1, _, some m) => (db1, some m)
  | (db1, cands, none) =>
    if cands.isEmpty then (db1, none)
    else
      ((OpenAIService.analyzeEmailsConcurrently aOpenAI limit cands).foldl
        (fun d p => Database.saveClaim d p.emailId p.result) db1,
       none)

/-- countProcessedEmails (part_000 lines 416-428): emails created at or
after the run start time. -/
def countProcessedEmails (db : DB) (startTime : Nat) : Nat :=
  (db.emails.filter (fun e => decide (startTime ≤ e.createdAt))).length

/-- countDetectedClaims (part_000 lines 433-446): claims joined to their
email row, `is_claim = 1`, email created at or after the run start. -/
def countDetectedClaims (db : DB) (startTime : Nat) : Nat :=
  (db.claims.filter (fun c =>
    c.result.isClaim
    && db.emails.any (fun e =>
        JsId.rowId e.rowid == c.emailKey
        && decide (startTime ≤ e.createdAt)))).length

/-- ClaimDetectionOrchestrator.processEmails of src/unnamed/part_000
(lines 34-141).  Differences from the sibling orchestrator: the
concurrency option configures `setConcurrentLimit` (ignored with a warning
under the local LLM), the batch is routed to the chunked-concurrent path
when `concurrency > 1` with the hosted backend, and the run counters are
recomputed from the store by creation time.  The local LLM startup failure
still throws before the try/finally, so no run record is written for
it. -/
def processEmails (mail : MailStubs) (aLocal aOpenAI : Analyze)
    (startServer : Bool) (o : ProcessOptions) (now : Nat) (st : OrchState) :
    Except String (Option RunResult) × OrchState :=
  if st.isRunning then (.ok none, st)
  else if o.useLocalLLM && !startServer then
    (.error "Failed to start ONNX NPU Server", st)
  else
    let limit :=
      match o.concurrency with
      | some c => if c != 0 && !o.useLocalLLM then max 1 c
                  else st.concurrentLimit
      | none => st.concurrentLimit
    let st1 := { st with isRunning := true, concurrentLimit := limit }
    match selectEmails mail o st1.db with
    | .error m =>
      let db2 := Database.logProcessingRun st1.db now now 0 0 (some m)
      (.error m, { st1 with isRunning := false, db := db2 })
    | .ok emails =>
      if emails.isEmpty then
        let db2 := Database.logProcessingRun st1.db now now 0 0 none
        (.ok (some ⟨0, 0⟩), { st1 with isRunning := false, db := db2 })
      else
        let (db1, err?) :=
          if !o.useLocalLLM
              && (match o.concurrency with
                  | some c => decide (1 < c)
                  | none => false) then
            processConcurrently mail aOpenAI st1.exclusionList
              st1.concurrentLimit o.emailAddress now emails st1.db
          else
            (processSequentially mail aLocal aOpenAI st1.exclusionList
              o.useLocalLLM o.emailAddress now emails st1.db, none)
        match err? with
        | some m =>
          let db2 := Database.logProcessingRun db1 now now 0 0 (some m)
          (.error m, { st1 with isRunning := false, db := db2 })
        | none =>
          let processed := countProcessedEmails db1 now
          let claimsDet := countDetectedClaims db1 now
          let db2 :=
            Database.logProcessingRun db1 now now processed claimsDet none
          (.ok (some ⟨processed, claimsDet⟩),
           { st1 with isRunning := false, db := db2 })

end ClaimDetectionOrchestratorAlt

/-! ## Claims about the response normalizer (C1) -/

/-- The field invariants of a normalized result for input `s`: confidence
clamped to [0,100], category and severity in their fixed sets, the raw
input attached, and reason/summary either a string or the truthy parsed
value passed through. -/
def NormalizedFields (r : AnalysisResult) (s : String) : Prop :=
  0 ≤ r.confidence ∧ r.confidence ≤ 100 ∧
  r.category ∈ validCategories ∧
  r.severity ∈ validSeverities ∧
  r.rawResponse = some s ∧
  ((∃ t, r.reason = Json.str t) ∨
    (jsTruthy r.reason = true ∧
      ∃ span parsed, jsonMatchSpan s = some span ∧
        jsonParse span = some parsed ∧ r.reason = jsGet parsed "reason")) ∧
  ((∃ t, r.summary = Json.str t) ∨
    (jsTruthy r.summary = true ∧
      ∃ span parsed, jsonMatchSpan s = some span ∧
        jsonParse span = some parsed ∧ r.summary = jsGet parsed "summary"))

/-- The success-branch coercions validate every field (the two span
hypotheses witness how `parseAnalysisResult` reached the success
branch). -/
theorem processedResult_fields (span : String) (parsed : Json) (s : String)
    (hspan : jsonMatchSpan s = some span)
    (hparse : jsonParse span = some parsed) :
    NormalizedFields (processedResult parsed s) s := by
  refine ⟨?_, ?_, ?_, ?_, rfl, ?_, ?_⟩
  · exact le_min (le_max_right _ _) (by norm_num)
  · exact min_le_right _ _
  · show (match jsGet parsed "category" with
      | .str c => if c ∈ validCategories then c else "other"
      | _ => "other") ∈ validCategories
    cases jsGet parsed "category" with
    | str c =>
      show (if c ∈ validCategories then c else "other") ∈ validCategories
      by_cases hc : c ∈ validCategories
      · simp [hc]
      · simp only [hc, if_false]
        decide
    | null =>
      show "other" ∈ validCategories
      decide
    | bool b =>
      show "other" ∈ validCategories
      decide
    | num n =>
      show "other" ∈ validCategories
      decide
    | arr l =>
      show "other" ∈ validCategories
      decide
    | obj kvs =>
      show "other" ∈ validCategories
      decide
  · show (match jsGet parsed "severity" with
      | .str c => if c ∈ validSeverities then c else "medium"
      | _ => "medium") ∈ validSeverities
    cases jsGet parsed "severity" with
    | str c =>
      show (if c ∈ validSeverities then c else "medium") ∈ validSeverities
      by_cases hc : c ∈ validSeverities
      · simp [hc]
      · simp only [hc, if_false]
        decide
    | null =>
      show "medium" ∈ validSeverities
      decide
    | bool b =>
      show "medium" ∈ validSeverities
      decide
    | num n =>
      show "medium" ∈ validSeverities
      decide
    | arr l =>
      show "medium" ∈ validSeverities
      decide
    | obj kvs =>
      show "medium" ∈ validSeverities
      decide
  · by_cases ht : jsTruthy (jsGet parsed "reason") = true
    · refine Or.inr ⟨?_, span, parsed, hspan, hparse, ?_⟩
      · show jsTruthy (jsOrEmptyStr (jsGet parsed "reason")) = true
        simp [jsOrEmptyStr, ht]
      · show jsOrEmptyStr (jsGet parsed "reason") = jsGet parsed "reason"
        simp [jsOrEmptyStr, ht]
    · refine Or.inl ⟨"", ?_⟩
      show jsOrEmptyStr (jsGet parsed "reason") = Json.str ""
      simp [jsOrEmptyStr, ht]
  · by_cases ht : jsTruthy (jsGet parsed "summary") = true
    · refine Or.inr ⟨?_, span, parsed, hspan, hparse, ?_⟩
      · show jsTruthy (jsOrEmptyStr (jsGet parsed "summary")) = true
        simp [jsOrEmptyStr, ht]
      · show jsOrEmptyStr (jsGet parsed "summary") = jsGet parsed "summary"
        simp [jsOrEmptyStr, ht]
    · refine Or.inl ⟨"", ?_⟩
      show jsOrEmptyStr (jsGet parsed "summary") = Json.str ""
      simp [jsOrEmptyStr, ht]

/-- C1 (amended): for every input string, both `parseAnalysisResult`
implementations return (without any exception, the functions being total)
a fully populated result: `isClaim` a boolean and `keywords` a list by
construction, `confidence` an integer clamped to [0,100], `category` in
the fixed six-value set, `severity` in {low, medium, high}, `rawResponse`
the original input, and `reason`/`summary` a string in every fallback
branch, or the truthy parsed JSON value passed through unchanged (the
amendment: the claim asserted they are always strings). -/
theorem parseAnalysisResult_normalizes (s : String) :
    NormalizedFields (BaseAIService.parseAnalysisResult s) s ∧
    NormalizedFields (OpenAIService.parseAnalysisResult s) s := by
  constructor
  · unfold BaseAIService.parseAnalysisResult
    split
    · exact ⟨by norm_num, by norm_num,
        (show "other" ∈ validCategories by decide),
        (show "medium" ∈ validSeverities by decide), rfl,
        Or.inl ⟨_, rfl⟩, Or.inl ⟨_, rfl⟩⟩
    · cases hspan : jsonMatchSpan s with
      | none =>
        exact ⟨by norm_num, by norm_num,
          (show "other" ∈ validCategories by decide),
          (show "medium" ∈ validSeverities by decide), rfl,
          Or.inl ⟨_, rfl⟩, Or.inl ⟨_, rfl⟩⟩
      | some span =>
        dsimp only
        cases hparse : jsonParse span with
        | none =>
          exact ⟨by norm_num, by norm_num,
            (show "other" ∈ validCategories by decide),
            (show "medium" ∈ validSeverities by decide), rfl,
            Or.inl ⟨_, rfl⟩, Or.inl ⟨_, rfl⟩⟩
        | some parsed => exact processedResult_fields span parsed s hspan hparse
  · unfold OpenAIService.parseAnalysisResult
    split
    · exact ⟨by norm_num, by norm_num,
        (show "other" ∈ validCategories by decide),
        (show "medium" ∈ validSeverities by decide), rfl,
        Or.inl ⟨_, rfl⟩, Or.inl ⟨_, rfl⟩⟩
    · cases hspan : jsonMatchSpan s with
      | none =>
        exact ⟨by norm_num, by norm_num,
          (show "other" ∈ validCategories by decide),
          (show "medium" ∈ validSeverities by decide), rfl,
          Or.inl ⟨_, rfl⟩, Or.inl ⟨_, rfl⟩⟩
      | some span =>
        dsimp only
        cases hparse : jsonParse span with
        | none =>
          exact ⟨by norm_num, by norm_num,
            (show "other" ∈ validCategories by decide),
            (show "medium" ∈ validSeverities by decide), rfl,
            Or.inl ⟨_, rfl⟩, Or.inl ⟨_, rfl⟩⟩
        | some parsed => exact processedResult_fields span parsed s hspan hparse

/-- C1 counterexample: the model text carrying a numeric `reason` field is
normalized to a result whose reason is the number 5, not a string,
refuting the asserted "reason and summary are strings". -/
theorem parseAnalysisResult_reason_not_string :
    (BaseAIService.parseAnalysisResult "\x7b\"reason\":5\x7d").reason
        = Json.num 5
    ∧ ∀ t : String,
        (BaseAIService.parseAnalysisResult "\x7b\"reason\":5\x7d").reason
          ≠ Json.str t := by
  have h5 : (BaseAIService.parseAnalysisResult "\x7b\"reason\":5\x7d").reason
      = Json.num 5 := rfl
  exact ⟨h5, fun t h => Json.noConfusion (h5.symm.trans h)⟩

/-! ## Claims about the dispatcher (C9), with helpers shared below -/

/-- Concatenating the chunks restores the array (`size = 0` never occurs
at the call site). -/
theorem chunkArray_join {α : Type} (size : Nat) (h : size ≠ 0) (l : List α) :
    (OpenAIService.chunkArray l size).flatten = l := by
  induction l, size using OpenAIService.chunkArray.induct with
  | case1 l size hcond =>
    rw [OpenAIService.chunkArray, if_pos hcond]
    simp only [Bool.or_eq_true, beq_iff_eq, List.isEmpty_iff] at hcond
    rcases hcond with hl | hs
    · simp [hl]
    · exact absurd hs h
  | case2 l size hcond ih =>
    rw [OpenAIService.chunkArray, if_neg hcond]
    simp only [List.flatten_cons, ih h, List.take_append_drop]

/-- Every chunk of a chunking with positive size is nonempty. -/
theorem chunkArray_ne_nil {α : Type} (size : Nat) (h : size ≠ 0)
    (l : List α) : ∀ c ∈ OpenAIService.chunkArray l size, c ≠ [] := by
  induction l, size using OpenAIService.chunkArray.induct with
  | case1 l size hcond =>
    rw [OpenAIService.chunkArray, if_pos hcond]
    simp
  | case2 l size hcond ih =>
    rw [OpenAIService.chunkArray, if_neg hcond]
    simp only [Bool.or_eq_true, beq_iff_eq, List.isEmpty_iff, not_or]
      at hcond
    intro c hc
    rcases List.mem_cons.mp hc with rfl | hc
    · have hs : 0 < size := Nat.pos_of_ne_zero h
      have hl : 0 < l.length := List.length_pos.mpr hcond.1
      intro hemp
      have := congrArg List.length hemp
      simp only [List.length_take, List.length_nil] at this
      omega
    · exact ih h c hc

/-- Every chunk other than the last has length exactly `size`. -/
theorem chunkArray_dropLast_length {α : Type} (size : Nat) (h : size ≠ 0)
    (l : List α) :
    ∀ c ∈ (OpenAIService.chunkArray l size).dropLast, c.length = size := by
  induction l, size using OpenAIService.chunkArray.induct with
  | case1 l size hcond =>
    rw [OpenAIService.chunkArray, if_pos hcond]
    simp
  | case2 l size hcond ih =>
    rw [OpenAIService.chunkArray, if_neg hcond]
    simp only [Bool.or_eq_true, beq_iff_eq, List.isEmpty_iff, not_or]
      at hcond
    intro c hc
    rcases hrest : OpenAIService.chunkArray (l.drop size) size
      with _ | ⟨c2, cs⟩
    · rw [hrest] at hc
      simp at hc
    · rw [hrest, List.dropLast_cons₂] at hc
      rcases List.mem_cons.mp hc with rfl | hc
      · have hdrop : l.drop size ≠ [] := by
          intro hemp
          rw [OpenAIService.chunkArray, hemp] at hrest
          simp at hrest
        have hlt : size < l.length := by
          have := List.length_pos.mpr hdrop
          simp only [List.length_drop] at this
          omega
        simp only [List.length_take]
        omega
      · have := ih h
        rw [hrest] at this
        exact this c hc

/-- The key of a settled pair is the id the source computed for it,
whether the call succeeded or was converted to the error marker. -/
theorem analyzeOne_emailId (analyze : Analyze) (e : UnprocessedEmail) :
    (OpenAIService.analyzeOne analyze e).emailId = jsIdOf e := by
  unfold OpenAIService.analyzeOne
  split <;> rfl

/-- The dispatcher settles exactly the list of per-email results, in chunk
order: for a positive limit it equals the straightforward map. -/
theorem analyzeEmailsConcurrently_eq_map (analyze : Analyze) (limit : Nat)
    (h : limit ≠ 0) (emails : List UnprocessedEmail) :
    OpenAIService.analyzeEmailsConcurrently analyze limit emails
      = emails.map (OpenAIService.analyzeOne analyze) := by
  unfold OpenAIService.analyzeEmailsConcurrently
  split
  · rename_i hemp
    rw [List.isEmpty_iff.mp hemp]
    rfl
  · have hfold : ∀ (chunks : List (List UnprocessedEmail))
        (acc : List AnalysisPair),
        chunks.foldl
          (fun rs ch => rs ++ ch.map (OpenAIService.analyzeOne analyze)) acc
          = acc ++ chunks.flatten.map (OpenAIService.analyzeOne analyze) := by
      intro chunks
      induction chunks with
      | nil => intro acc; simp
      | cons ch rest ih =>
        intro acc
        simp only [List.foldl_cons, ih, List.flatten_cons, List.map_append,
          List.append_assoc]
    rw [hfold, chunkArray_join limit h emails]
    rfl

/-- C9: chunking with a positive size partitions the array exactly — the
chunks concatenate back to the array, every chunk but the last has length
`size`, no chunk is empty — and consequently `analyzeEmailsConcurrently`
yields exactly one result pair per input email, keyed by that email, with
no input dropped or duplicated. -/
theorem chunkArray_partitions_and_dispatcher_complete {α : Type}
    (size : Nat) (h : 1 ≤ size) (l : List α) (analyze : Analyze)
    (emails : List UnprocessedEmail) :
    (OpenAIService.chunkArray l size).flatten = l ∧
    (∀ c ∈ (OpenAIService.chunkArray l size).dropLast, c.length = size) ∧
    (∀ c ∈ OpenAIService.chunkArray l size, c ≠ []) ∧
    (OpenAIService.analyzeEmailsConcurrently analyze size emails).map
        AnalysisPair.emailId = emails.map jsIdOf := by
  have hz : size ≠ 0 := by omega
  refine ⟨chunkArray_join size hz l, chunkArray_dropLast_length size hz l,
    chunkArray_ne_nil size hz l, ?_⟩
  rw [analyzeEmailsConcurrently_eq_map analyze size hz emails, List.map_map]
  exact List.map_congr_left (fun e _ => analyzeOne_emailId analyze e)

/-- C9 witness at a concrete size, array, and stubbed analyzer. -/
theorem chunkArray_partitions_witness :
    (OpenAIService.chunkArray [1, 2, 3, 4, 5] 2).flatten = [1, 2, 3, 4, 5] ∧
    (∀ c ∈ (OpenAIService.chunkArray [1, 2, 3, 4, 5] 2).dropLast, c.length = 2) ∧
    (∀ c ∈ OpenAIService.chunkArray [1, 2, 3, 4, 5] 2, c ≠ []) ∧
    (OpenAIService.analyzeEmailsConcurrently
        (fun _ _ _ => .error "stub") 2 []).map AnalysisPair.emailId
      = ([] : List UnprocessedEmail).map jsIdOf :=
  chunkArray_partitions_and_dispatcher_complete 2 (by norm_num)
    [1, 2, 3, 4, 5] (fun _ _ _ => .error "stub") []

/-! ## Claims about the store query (C10) and the exclusion filter (C7, C6) -/

/-- C10: every row returned by the `getClaims` operation exposed to the
CLI has `isClaim = true` — the SQL carries the fixed conjunct
`c.is_claim = 1`, so classifications with `isClaim` false (including the
synthetic excluded records) never appear. -/
theorem getClaims_only_claims (f : Database.ClaimFilters) (db : DB)
    (v : ClaimDetectionOrchestrator.ClaimView)
    (hv : v ∈ ClaimDetectionOrchestrator.getClaims f db) :
    v.isClaim = true := by
  unfold ClaimDetectionOrchestrator.getClaims at hv
  rcases List.mem_map.mp hv with ⟨ec, hec, rfl⟩
  unfold Database.getClaims at hec
  dsimp only at hec
  have hmem : ec ∈ (db.claims.filterMap (fun c =>
      (db.emails.find? (fun e => JsId.rowId e.rowid == c.emailKey)).map
        (fun e => (e, c)))).filter (fun ec =>
      ec.2.result.isClaim
      && (match f.category with
          | some s => if s != "" then ec.2.result.category == s else true
          | none => true)
      && (match f.severity with
          | some s => if s != "" then ec.2.result.severity == s else true
          | none => true)
      && (match f.dateFrom with
          | some t => if t != 0 then decide (t ≤ ec.1.receivedDateTime)
                      else true
          | none => true)
      && (match f.dateTo with
          | some t => if t != 0 then decide (ec.1.receivedDateTime ≤ t)
                      else true
          | none => true)
      && (match f.confidence with
          | some c => if c != 0 then decide (c ≤ ec.2.result.confidence)
                      else true
          | none => true)) := by
    rcases hf : f.limit with _ | n <;> rw [hf] at hec
    · exact hec
    · dsimp only at hec
      split at hec
      · exact List.take_subset _ _ hec
      · exact hec
  have hpred := (List.mem_filter.mp hmem).2
  simp only [Bool.and_eq_true] at hpred
  exact hpred.1.1.1.1.1

/-- The database, row, and mapped view used to witness the store query
claim. -/
def sampleClaimResult : AnalysisResult :=
  { isClaim := true, confidence := 80, category := "communication",
    severity := "high", reason := .str "reason", keywords := [],
    summary := .str "summary" }

/-- Witness email row for the store query claim. -/
def sampleEmailRow : EmailRow :=
  { rowid := 1, emailId := "m1", subject := "subject",
    senderEmail := "user@example.com", senderName := "User",
    receivedDateTime := 5, bodyContent := "body", createdAt := 9 }

/-- Witness database for the store query claim. -/
def sampleClaimDB : DB :=
  { emails := [sampleEmailRow], nextEmailRowId := 2,
    claims := [⟨.rowId 1, sampleClaimResult⟩], runLog := [] }

/-- C10 witness: the single stored claim row is returned by the query and
carries `isClaim = true`. -/
theorem getClaims_only_claims_witness :
    (ClaimDetectionOrchestrator.mapClaimRow
        (sampleEmailRow, ⟨.rowId 1, sampleClaimResult⟩)).isClaim = true := by
  have hlist : ClaimDetectionOrchestrator.getClaims {} sampleClaimDB
      = [ClaimDetectionOrchestrator.mapClaimRow
          (sampleEmailRow, ⟨.rowId 1, sampleClaimResult⟩)] := rfl
  refine getClaims_only_claims {} sampleClaimDB _ ?_
  rw [hlist]
  exact List.mem_singleton_self _

/-- C7: when the exclusion configuration file is missing, unreadable, or
unparseable, `loadExclusionList` recovers locally to the empty
configuration; afterwards `shouldExcludeFromClaimDetection` returns false
for every sender and subject. -/
theorem loadExclusionList_failure_excludes_nothing
    (m sender subject : String) :
    shouldExcludeFromClaimDetection (loadExclusionList .missing)
        sender subject = false
    ∧ shouldExcludeFromClaimDetection (loadExclusionList (.readFailed m))
        sender subject = false
    ∧ shouldExcludeFromClaimDetection (loadExclusionList (.parseFailed m))
        sender subject = false := by
  have key : shouldExcludeFromClaimDetection (some emptyExclusionConfig)
      sender subject = false := by
    unfold shouldExcludeFromClaimDetection emptyExclusionConfig
    dsimp only
    cases ((jsSplitAt '@' sender).get? 1).map jsToLower with
    | none => simp
    | some d => simp
  exact ⟨key, key, key⟩

/-- C6 (amended): for every configured rule set and every sender and
subject, `shouldExcludeFromClaimDetection` returns true exactly when the
lowercased sender is a member of the exact-address list as configured, or
the lowercased domain portion of the sender is nonempty and a member of
the domain list as configured, or a well-formed subject pattern matches
(malformed patterns skipped) — case-insensitive in the sender only, the
configured entries being compared verbatim (the amendment forced by the
counterexample).  And the mailchimp scenario holds: for every rule set
with "mailchimp.com" in the domain set, sender "bot@mailchimp.com" is
excluded for every subject. -/
theorem shouldExclude_characterization :
    (∀ (cfg : ExclusionConfig) (sender subject : String),
        shouldExcludeFromClaimDetection (some ⟨some cfg⟩) sender subject
          = specShouldExclude cfg sender subject)
    ∧ (∀ (cfg : ExclusionConfig) (subject : String),
        "mailchimp.com" ∈ cfg.domains →
          shouldExcludeFromClaimDetection (some ⟨some cfg⟩)
            "bot@mailchimp.com" subject = true) := by
  constructor
  · intro cfg sender subject
    unfold shouldExcludeFromClaimDetection specShouldExclude
    dsimp only
    have hpat : (cfg.subjectPatterns.any
        (fun p => (p.map (· subject)).getD false))
        = decide (∃ p ∈ cfg.subjectPatterns, ∃ f, p = some f ∧
            f subject = true) := by
      rcases hb : cfg.subjectPatterns.any
          (fun p => (p.map (· subject)).getD false) with _ | _
      · rw [hb]
        symm
        apply decide_eq_false
        rintro ⟨p, hp, f, rfl, hf⟩
        have : cfg.subjectPatterns.any
            (fun p => (p.map (· subject)).getD false) = true :=
          List.any_eq_true.mpr ⟨some f, hp, by simpa [Option.map] using hf⟩
        rw [hb] at this
        exact Bool.noConfusion this
      · rw [hb]
        symm
        apply decide_eq_true
        rcases List.any_eq_true.mp hb with ⟨p, hp, hv⟩
        cases p with
        | none => simp [Option.map] at hv
        | some f =>
          exact ⟨some f, hp, f, rfl, by simpa [Option.map] using hv⟩
    by_cases h1 : cfg.emails.contains (jsToLower sender) = true
    · have h1m : jsToLower sender ∈ cfg.emails := List.elem_iff.mp h1
      simp [h1, h1m]
    · have h1m : jsToLower sender ∉ cfg.emails := fun hmem =>
        h1 (List.elem_eq_true_of_mem hmem)
      simp only [h1, Bool.false_eq_true, if_false, decide_eq_false h1m,
        Bool.false_or]
      rcases ho : (jsSplitAt '@' sender).get? 1 with _ | d
      · simp only [Option.map_none', Bool.false_or]
        exact hpat
      · simp only [Option.map_some']
        by_cases hb : (jsToLower d != ""
            && cfg.domains.contains (jsToLower d)) = true
        · have hb2 := hb
          rw [Bool.and_eq_true] at hb2
          have hne : jsToLower d ≠ "" := bne_iff_ne.mp hb2.1
          have hmem : jsToLower d ∈ cfg.domains := List.elem_iff.mp hb2.2
          simp [hb, decide_eq_true
            (show jsToLower d ≠ "" ∧ jsToLower d ∈ cfg.domains from
              ⟨hne, hmem⟩)]
        · have hnot : ¬(jsToLower d ≠ "" ∧ jsToLower d ∈ cfg.domains) := by
            rintro ⟨hne, hmem⟩
            exact hb (by
              rw [Bool.and_eq_true]
              exact ⟨bne_iff_ne.mpr hne, List.elem_eq_true_of_mem hmem⟩)
          simp only [hb, Bool.false_eq_true, if_false, decide_eq_false hnot,
            Bool.false_or]
          exact hpat
  · intro cfg subject hm
    unfold shouldExcludeFromClaimDetection
    dsimp only
    by_cases h1 :
        cfg.emails.contains (jsToLower "bot@mailchimp.com") = true
    · rw [if_pos h1]
    · have hd : ((jsSplitAt '@' "bot@mailchimp.com").get? 1).map jsToLower
          = some "mailchimp.com" := rfl
      have hc : cfg.domains.contains "mailchimp.com" = true :=
        List.elem_eq_true_of_mem hm
      rw [if_neg h1, hd]
      dsimp only
      rw [if_pos (show ("mailchimp.com" != ""
          && cfg.domains.contains "mailchimp.com") = true by
        rw [Bool.and_eq_true]
        exact ⟨by decide, hc⟩)]

/-- C6 witness: the characterization and the scenario at a concrete
configuration and inputs, with the scenario's membership hypothesis
discharged there. -/
theorem shouldExclude_characterization_witness :
    (shouldExcludeFromClaimDetection
        (some ⟨some ⟨[], ["mailchimp.com"], []⟩⟩) "x@y.com" "hello"
      = specShouldExclude ⟨[], ["mailchimp.com"], []⟩ "x@y.com" "hello")
    ∧ shouldExcludeFromClaimDetection
        (some ⟨some ⟨[], ["mailchimp.com"], []⟩⟩) "bot@mailchimp.com"
        "hello" = true :=
  ⟨shouldExclude_characterization.1 ⟨[], ["mailchimp.com"], []⟩
      "x@y.com" "hello",
   shouldExclude_characterization.2 ⟨[], ["mailchimp.com"], []⟩
      "hello" (by decide)⟩

/-- C6 counterexample: with the exact-address list carrying an upper-case
entry, the sender is a member of the set case-insensitively (here even
verbatim), yet the filter does not exclude — the code lowercases only the
sender and compares the configured entries verbatim, so the claimed
case-insensitive membership rule does not hold. -/
theorem shouldExclude_config_entry_case_sensitive :
    "BOT@example.com" ∈ (["BOT@example.com"] : List String)
    ∧ shouldExcludeFromClaimDetection
        (some ⟨some ⟨["BOT@example.com"], [], []⟩⟩)
        "BOT@example.com" "subject" = false :=
  ⟨by decide, rfl⟩

/-! ## Claims about deduplication (C5) and exclusion (C4) in the pipeline -/

/-- C5: a message whose external id the store already records is skipped
by every processing path: the state is returned unchanged (no detail
fetch is used, no Message row or classification is written, the counters
do not move), and the conclusion holds for arbitrary analyzer stubs, so
no Completion Service call is made for it. -/
theorem processed_message_skipped (mail : MailStubs)
    (aL aO : Analyze) (xl : ExclusionList) (useLocal : Bool)
    (mailbox : Option String) (now : Nat) (db : DB) (e : SummaryEmail)
    (errs : Option String) (p c : Nat) (rest : List SummaryEmail)
    (acc : List UnprocessedEmail)
    (h : Database.isEmailProcessed db e.id = true) :
    ClaimDetectionOrchestrator.emailStep mail aL aO xl useLocal mailbox
        now (db, errs, p, c) e = (db, errs, p, c)
    ∧ ClaimDetectionOrchestratorAlt.seqStep mail aL aO xl useLocal mailbox
        now db e = db
    ∧ ClaimDetectionOrchestratorAlt.concFetchLoop mail xl mailbox now
        (e :: rest) db acc
      = ClaimDetectionOrchestratorAlt.concFetchLoop mail xl mailbox now
          rest db acc := by
  refine ⟨?_, ?_, ?_⟩
  · simp [ClaimDetectionOrchestrator.emailStep, h]
  · simp [ClaimDetectionOrchestratorAlt.seqStep, h]
  · rw [ClaimDetectionOrchestratorAlt.concFetchLoop]
    simp [h]

/-- Stubbed mail source used by the dedup and exclusion witnesses: a
fixed detail record for every id, extraction returning "hello". -/
def witnessMail : MailStubs :=
  { getEmails := fun _ _ _ => .ok []
    getEmailsByDateRange := .ok []
    getEmailDetails := fun _ _ => .ok
      { id := "m1", subject := "Weekly news",
        fromAddress := some "bot@mailchimp.com", fromName := some "Bot",
        internetMessageId := "im", receivedDateTime := 3 }
    extractTextFromEmail := fun _ => "hello" }

/-- An analyzer stub that always throws; the witnessed paths never reach
it. -/
def witnessNoAI : Analyze := fun _ _ _ => .error "no ai"

/-- The row giving the store the already-seen external id "m1". -/
def witnessSeenRow : EmailRow :=
  { rowid := 1, emailId := "m1", subject := "s", senderEmail := "a@b",
    senderName := "n", receivedDateTime := 1, bodyContent := "b",
    createdAt := 1 }

/-- A store already holding the external id "m1". -/
def witnessSeenDB : DB :=
  { DB.empty with emails := [witnessSeenRow], nextEmailRowId := 2 }

/-- C5 witness: a store already holding external id "m1" skips the
message unchanged. -/
theorem processed_message_skipped_witness :
    ClaimDetectionOrchestrator.emailStep witnessMail witnessNoAI
        witnessNoAI none false none 7 (witnessSeenDB, none, 0, 0)
        ⟨"m1", "s", none⟩
      = (witnessSeenDB, none, 0, 0) :=
  (processed_message_skipped witnessMail witnessNoAI witnessNoAI none
    false none 7 witnessSeenDB ⟨"m1", "s", none⟩ none 0 0 [] []
    (by decide)).1

/-- C4: a message whose sender/subject match an exclusion rule is
persisted with the synthetic excluded result — whose category is
"excluded", severity "none" and confidence 0 — in every processing path,
and the step result does not mention the analyzer stubs, which are
arbitrary: no Completion Service call is made for it. -/
theorem excluded_message_no_completion (mail : MailStubs)
    (aL aO : Analyze) (xl : ExclusionList) (useLocal : Bool)
    (mailbox : Option String) (now : Nat) (db : DB) (e : SummaryEmail)
    (errs : Option String) (p c : Nat) (rest : List SummaryEmail)
    (acc : List UnprocessedEmail) (d : EmailDetails)
    (hnp : Database.isEmailProcessed db e.id = false)
    (hdet : mail.getEmailDetails e.id (jsOrStrOpt mailbox e.mailboxSource)
      = .ok d)
    (hexc : shouldExcludeFromClaimDetection xl (d.fromAddress.getD "")
      d.subject = true) :
    excludedResult.category = "excluded"
    ∧ excludedResult.severity = "none"
    ∧ excludedResult.confidence = 0
    ∧ ClaimDetectionOrchestrator.emailStep mail aL aO xl useLocal mailbox
        now (db, errs, p, c) e
      = (Database.saveClaim
          (Database.saveEmail db now
            { d with bodyContent := mail.extractTextFromEmail d }).1
          (.rowId (Database.saveEmail db now
            { d with bodyContent := mail.extractTextFromEmail d }).2)
          excludedResult,
         errs, p + 1, c)
    ∧ ClaimDetectionOrchestratorAlt.seqStep mail aL aO xl useLocal mailbox
        now db e
      = Database.saveClaim
          (Database.saveEmail db now
            { d with bodyContent := mail.extractTextFromEmail d }).1
          (.rowId (Database.saveEmail db now
            { d with bodyContent := mail.extractTextFromEmail d }).2)
          excludedResult
    ∧ ClaimDetectionOrchestratorAlt.concFetchLoop mail xl mailbox now
        (e :: rest) db acc
      = ClaimDetectionOrchestratorAlt.concFetchLoop mail xl mailbox now
          rest
          (Database.saveClaim
            (Database.saveEmail db now
              { d with bodyContent := mail.extractTextFromEmail d }).1
            (.rowId (Database.saveEmail db now
              { d with bodyContent := mail.extractTextFromEmail d }).2)
            excludedResult)
          acc := by
  refine ⟨rfl, rfl, rfl, ?_, ?_, ?_⟩
  · simp [ClaimDetectionOrchestrator.emailStep, hnp, hdet, hexc]
  · simp [ClaimDetectionOrchestratorAlt.seqStep, hnp, hdet, hexc]
  · rw [ClaimDetectionOrchestratorAlt.concFetchLoop]
    simp [hnp, hdet, hexc]

/-- C4 witness: a mailchimp sender against the domain exclusion list is
persisted as excluded without any completion call. -/
theorem excluded_message_no_completion_witness :
    excludedResult.category = "excluded"
    ∧ excludedResult.severity = "none"
    ∧ excludedResult.confidence = 0 :=
  let h := excluded_message_no_completion witnessMail witnessNoAI
    witnessNoAI (some ⟨some ⟨[], ["mailchimp.com"], []⟩⟩) false none 7
    DB.empty ⟨"m1", "Weekly news", none⟩ none 0 0 [] []
    { id := "m1", subject := "Weekly news",
      fromAddress := some "bot@mailchimp.com", fromName := some "Bot",
      internetMessageId := "im", receivedDateTime := 3 }
    (by decide) rfl (by decide)
  ⟨h.1, h.2.1, h.2.2.1⟩

/-! ## Claims about run finalization (C2) and per-message failures (C3) -/

/-- saveEmail never touches the run-log table. -/
theorem saveEmail_runLog (db : DB) (now : Nat) (e : EmailDetails) :
    ((Database.saveEmail db now e).1).runLog = db.runLog := by
  unfold Database.saveEmail
  split <;> rfl

/-- saveClaim never touches the run-log table. -/
theorem saveClaim_runLog (db : DB) (k : JsId) (r : AnalysisResult) :
    (Database.saveClaim db k r).runLog = db.runLog := rfl

/-- One sequential step never touches the run-log table. -/
theorem seqStep_runLog (mail : MailStubs) (aL aO : Analyze)
    (xl : ExclusionList) (useLocal : Bool) (mailbox : Option String)
    (now : Nat) (db : DB) (e : SummaryEmail) :
    (ClaimDetectionOrchestratorAlt.seqStep mail aL aO xl useLocal mailbox
      now db e).runLog = db.runLog := by
  unfold ClaimDetectionOrchestratorAlt.seqStep
  by_cases hp : Database.isEmailProcessed db e.id = true
  · rw [if_pos hp]
  · rw [if_neg hp]
    cases hdet : mail.getEmailDetails e.id
        (jsOrStrOpt mailbox e.mailboxSource) with
    | error m => rfl
    | ok d =>
      dsimp only
      rcases hsv : Database.saveEmail db now
          { d with bodyContent := mail.extractTextFromEmail d }
        with ⟨db1, sid⟩
      have h1 : db1.runLog = db.runLog := by
        have h2 := saveEmail_runLog db now
          { d with bodyContent := mail.extractTextFromEmail d }
        rw [hsv] at h2
        exact h2
      by_cases hex : shouldExcludeFromClaimDetection xl
          (d.fromAddress.getD "") d.subject = true
      · rw [if_pos hex, saveClaim_runLog]
        exact h1
      · rw [if_neg hex]
        by_cases htx : (jsTrim (mail.extractTextFromEmail d) != "") = true
        · rw [if_pos htx]
          cases (if useLocal then aL else aO)
              (mail.extractTextFromEmail d) d.subject
              (d.fromName.getD "" ++ " <" ++ d.fromAddress.getD "" ++ ">")
            with
          | error m => exact h1
          | ok r => rw [saveClaim_runLog]; exact h1
        · rw [if_neg htx]
          exact h1

/-- processSequentially never touches the run-log table. -/
theorem processSequentially_runLog (mail : MailStubs) (aL aO : Analyze)
    (xl : ExclusionList) (useLocal : Bool) (mailbox : Option String)
    (now : Nat) (emails : List SummaryEmail) (db : DB) :
    (ClaimDetectionOrchestratorAlt.processSequentially mail aL aO xl
      useLocal mailbox now emails db).runLog = db.runLog := by
  unfold ClaimDetectionOrchestratorAlt.processSequentially
  induction emails generalizing db with
  | nil => rfl
  | cons e rest ih =>
    rw [List.foldl_cons, ih, seqStep_runLog]

/-- The concurrent-path fetch loop never touches the run-log table. -/
theorem concFetchLoop_runLog (mail : MailStubs) (xl : ExclusionList)
    (mailbox : Option String) (now : Nat) (emails : List SummaryEmail)
    (db : DB) (acc : List UnprocessedEmail) :
    ((ClaimDetectionOrchestratorAlt.concFetchLoop mail xl mailbox now
      emails db acc).1).runLog = db.runLog := by
  induction emails generalizing db acc with
  | nil => rfl
  | cons e rest ih =>
    rw [ClaimDetectionOrchestratorAlt.concFetchLoop]
    by_cases hp : Database.isEmailProcessed db e.id = true
    · rw [if_pos hp]
      exact ih db acc
    · rw [if_neg hp]
      cases hdet : mail.getEmailDetails e.id
          (jsOrStrOpt mailbox e.mailboxSource) with
      | error m => rfl
      | ok d =>
        dsimp only
        rcases hsv : Database.saveEmail db now
            { d with bodyContent := mail.extractTextFromEmail d }
          with ⟨db1, sid⟩
        have h1 : db1.runLog = db.runLog := by
          have h2 := saveEmail_runLog db now
            { d with bodyContent := mail.extractTextFromEmail d }
          rw [hsv] at h2
          exact h2
        by_cases hex : shouldExcludeFromClaimDetection xl
            (d.fromAddress.getD "") d.subject = true
        · rw [if_pos hex, ih, saveClaim_runLog]
          exact h1
        · rw [if_neg hex]
          by_cases htx : (jsTrim (mail.extractTextFromEmail d) != "") = true
          · rw [if_pos htx, ih]
            exact h1
          · rw [if_neg htx, ih]
            exact h1

/-- Persisting the settled analysis pairs never touches the run-log
table. -/
theorem foldl_saveClaim_runLog (ps : List AnalysisPair) (db : DB) :
    (ps.foldl (fun d p => Database.saveClaim d p.emailId p.result)
      db).runLog = db.runLog := by
  induction ps generalizing db with
  | nil => rfl
  | cons p rest ih => rw [List.foldl_cons, ih, saveClaim_runLog]

/-- processConcurrently never touches the run-log table. -/
theorem processConcurrently_runLog (mail : MailStubs) (aO : Analyze)
    (xl : ExclusionList) (limit : Nat) (mailbox : Option String)
    (now : Nat) (emails : List SummaryEmail) (db : DB) :
    ((ClaimDetectionOrchestratorAlt.processConcurrently mail aO xl limit
      mailbox now emails db).1).runLog = db.runLog := by
  unfold ClaimDetectionOrchestratorAlt.processConcurrently
  rcases hloop : ClaimDetectionOrchestratorAlt.concFetchLoop mail xl
      mailbox now emails db [] with ⟨db1, cands, err?⟩
  have h1 : db1.runLog = db.runLog := by
    have h2 := concFetchLoop_runLog mail xl mailbox now emails db []
    rw [hloop] at h2
    exact h2
  cases err? with
  | some m => exact h1
  | none =>
    dsimp only
    split
    · exact h1
    · rw [foldl_saveClaim_runLog]
      exact h1

/-- C2 (amended): for every invocation of the part_000 processEmails that
passes the re-entrancy guard and does not select a failing self-hosted
backend, exactly one ProcessingRun record is appended — even when source
selection or processing throws — and the re-entrancy flag ends cleared;
when source selection throws, the record carries the error text in its
errors field (status "error" for a nonempty message) and the same
exception is re-raised to the caller.  The amendment: a self-hosted
backend startup failure is thrown before the try/finally, so for it no
record is written at all (see the counterexample). -/
theorem alt_run_record (mail : MailStubs) (aL aO : Analyze)
    (startServer : Bool) (o : ProcessOptions) (now : Nat) (st : OrchState)
    (hidle : st.isRunning = false)
    (hstart : (o.useLocalLLM && !startServer) = false) :
    (∃ rec, ((ClaimDetectionOrchestratorAlt.processEmails mail aL aO
        startServer o now st).2).db.runLog = st.db.runLog ++ [rec])
    ∧ ((ClaimDetectionOrchestratorAlt.processEmails mail aL aO
        startServer o now st).2).isRunning = false
    ∧ (∀ m, selectEmails mail o st.db = .error m →
        (ClaimDetectionOrchestratorAlt.processEmails mail aL aO
          startServer o now st).1 = .error m
        ∧ ((ClaimDetectionOrchestratorAlt.processEmails mail aL aO
            startServer o now st).2).db.runLog
          = st.db.runLog ++ [⟨now, now, 0, 0, some m,
              if m == "" then "success" else "error"⟩]) := by
  unfold ClaimDetectionOrchestratorAlt.processEmails
  rw [hidle]
  simp only [Bool.false_eq_true, if_false, hstart]
  cases hsel : selectEmails mail o st.db with
  | error m0 =>
    refine ⟨⟨_, rfl⟩, rfl, ?_⟩
    intro m hm
    injection hm with h
    subst h
    exact ⟨rfl, rfl⟩
  | ok emails =>
    dsimp only
    refine ⟨?_, ?_, fun m hm => absurd hm (fun h => Except.noConfusion h)⟩
    case _ =>
      cases hemp : emails.isEmpty with
      | true =>
        rw [if_pos rfl]
        exact ⟨_, rfl⟩
      | false =>
        rw [if_neg Bool.false_ne_true]
        cases hc : o.concurrency with
        | none =>
          dsimp only
          rw [Bool.and_false, if_neg Bool.false_ne_true]
          have hdb1 := processSequentially_runLog mail aL aO
            st.exclusionList o.useLocalLLM o.emailAddress now emails st.db
          exact ⟨_, by
            show (Database.logProcessingRun
              (ClaimDetectionOrchestratorAlt.processSequentially mail aL aO
                st.exclusionList o.useLocalLLM o.emailAddress now emails
                st.db) now now _ _ none).runLog = _
            unfold Database.logProcessingRun
            dsimp only
            rw [hdb1]⟩
        | some c =>
          dsimp only
          cases hl : o.useLocalLLM with
          | true =>
            simp only [Bool.not_true, Bool.false_and]
            rw [if_neg Bool.false_ne_true]
            have hdb1 := processSequentially_runLog mail aL aO
              st.exclusionList true o.emailAddress now emails st.db
            exact ⟨_, by
              unfold Database.logProcessingRun
              dsimp only
              rw [hdb1]⟩
          | false =>
            simp only [Bool.not_false, Bool.true_and, Bool.and_true]
            cases hgt : decide (1 < c) with
            | false =>
              rw [if_neg Bool.false_ne_true]
              have hdb1 := processSequentially_runLog mail aL aO
                st.exclusionList false o.emailAddress now emails st.db
              exact ⟨_, by
                unfold Database.logProcessingRun
                dsimp only
                rw [hdb1]⟩
            | true =>
              rw [if_pos rfl]
              rcases hpc : ClaimDetectionOrchestratorAlt.processConcurrently
                  mail aO st.exclusionList
                  (if (c != 0) = true then max 1 c else st.concurrentLimit)
                  o.emailAddress now emails st.db with ⟨db1, err?⟩
              have hdb1 : db1.runLog = st.db.runLog := by
                have h2 := processConcurrently_runLog mail aO
                  st.exclusionList
                  (if (c != 0) = true then max 1 c else st.concurrentLimit)
                  o.emailAddress now emails st.db
                rw [hpc] at h2
                exact h2
              cases err? with
              | some m1 =>
                exact ⟨_, by
                  unfold Database.logProcessingRun
                  dsimp only
                  rw [hdb1]⟩
              | none =>
                exact ⟨_, by
                  unfold Database.logProcessingRun
                  dsimp only
                  rw [hdb1]⟩
    case _ =>
      cases hemp : emails.isEmpty with
      | true => rw [if_pos rfl]
      | false =>
        rw [if_neg Bool.false_ne_true]
        cases hc : o.concurrency with
        | none =>
          dsimp only
          rw [Bool.and_false, if_neg Bool.false_ne_true]
        | some c =>
          dsimp only
          cases hl : o.useLocalLLM with
          | true =>
            simp only [Bool.not_true, Bool.false_and]
            rw [if_neg Bool.false_ne_true]
          | false =>
            simp only [Bool.not_false, Bool.true_and, Bool.and_true]
            cases hgt : decide (1 < c) with
            | false => rw [if_neg Bool.false_ne_true]
            | true =>
              rw [if_pos rfl]
              rcases hpc : ClaimDetectionOrchestratorAlt.processConcurrently
                  mail aO st.exclusionList
                  (if (c != 0) = true then max 1 c else st.concurrentLimit)
                  o.emailAddress now emails st.db with ⟨db1, err?⟩
              cases err? with
              | some m1 => rfl
              | none => rfl

/-- A mail source whose listing call always throws. -/
def failSelMail : MailStubs :=
  { getEmails := fun _ _ _ => .error "boom"
    getEmailsByDateRange := .error "boom"
    getEmailDetails := fun _ _ => .error "no fetch"
    extractTextFromEmail := fun _ => "" }

/-- C2 witness: a run whose source selection throws still appends exactly
one run record. -/
theorem alt_run_record_witness :
    ∃ rec, ((ClaimDetectionOrchestratorAlt.processEmails failSelMail
        witnessNoAI witnessNoAI true {} 7 {}).2).db.runLog
      = ({} : OrchState).db.runLog ++ [rec] :=
  (alt_run_record failSelMail witnessNoAI witnessNoAI true {} 7 {}
    rfl rfl).1

/-- C2 counterexample: with the self-hosted backend selected and failing
to start, processEmails throws before the try/finally block: the state is
returned untouched and no ProcessingRun record is written, while the
claim demands exactly one record carrying the error. -/
theorem processEmails_backend_failure_no_record :
    ClaimDetectionOrchestratorAlt.processEmails witnessMail witnessNoAI
        witnessNoAI false { useLocalLLM := true } 7 {}
      = (.error "Failed to start ONNX NPU Server", {})
    ∧ ((ClaimDetectionOrchestratorAlt.processEmails witnessMail
        witnessNoAI witnessNoAI false { useLocalLLM := true } 7
        {}).2).db.runLog = [] :=
  ⟨rfl, rfl⟩

/-- Three message summaries for the per-message failure scenario of C3:
the detail fetch will throw for the second. -/
def threeEmails : List SummaryEmail :=
  [⟨"e1", "s1", none⟩, ⟨"e2", "s2", none⟩, ⟨"e3", "s3", none⟩]

/-- Detail record returned for the fetchable messages (the subject is
the message id, letting the stub analyzer tell them apart). -/
def scenarioDetails (id : String) : EmailDetails :=
  { id := id, subject := id, fromAddress := some "u@example.org",
    fromName := some "U", internetMessageId := "im",
    receivedDateTime := 2 }

/-- Mail source for the scenario: three messages listed, detail fetch
throwing with the given message exactly for "e2". -/
def seqFailMail (m : String) : MailStubs :=
  { getEmails := fun _ _ _ => .ok threeEmails
    getEmailsByDateRange := .ok threeEmails
    getEmailDetails := fun id _ =>
      if id == "e2" then .error m else .ok (scenarioDetails id)
    extractTextFromEmail := fun _ => "please help" }

/-- Stubbed completion call returning one fixed result per message. -/
def seqFailAnalyzer (r1 r3 : AnalysisResult) : Analyze :=
  fun _ subj _ => .ok (if subj == "e1" then r1 else r3)

/-- A fixed non-claim classification used by concrete scenario runs. -/
def notClaimRes : AnalysisResult :=
  { isClaim := false, confidence := 10, category := "not_claim",
    severity := "low", reason := .str "r", keywords := [],
    summary := .str "s" }

/-- The email row the scenario run persists for a fetched message. -/
def scenarioRow (rid : Nat) (id : String) : EmailRow :=
  { rowid := rid, emailId := id, subject := id,
    senderEmail := "u@example.org", senderName := "U",
    receivedDateTime := 2, bodyContent := "please help", createdAt := 7 }

/-- C3 (amended): in the inline-loop orchestrator of
claimDetectionOrchestrator.js the claim holds as stated: a run of three
messages whose second detail fetch throws with message m (nonempty)
completes with processed = 2, messages #1 and #3 saved and classified
normally, and one run record whose error text is exactly m and whose
status is "error".  The amendment: in the part_000 variant the
per-message catch does not accumulate the message, so the same run ends
with status "success" and no error text (see the counterexample). -/
theorem processEmails_per_message_error_accumulated (m : String) (r1 r3 : AnalysisResult)
    (hm : (m == "") = false) :
    ClaimDetectionOrchestrator.processEmails (seqFailMail m)
        (seqFailAnalyzer r1 r3) (seqFailAnalyzer r1 r3) true {} 7 {}
      = (.ok (some ⟨2, (if r1.isClaim then 1 else 0)
            + (if r3.isClaim then 1 else 0)⟩),
         { isRunning := false, exclusionList := none, concurrentLimit := 3,
           db :=
             { emails := [scenarioRow 1 "e1", scenarioRow 2 "e3"]
               nextEmailRowId := 3
               claims := [⟨.rowId 1, r1⟩, ⟨.rowId 2, r3⟩]
               runLog := [⟨7, 7, 2, (if r1.isClaim then 1 else 0)
                 + (if r3.isClaim then 1 else 0), some m, "error"⟩] } }) := by
  have h0 : ClaimDetectionOrchestrator.processEmails (seqFailMail m)
      (seqFailAnalyzer r1 r3) (seqFailAnalyzer r1 r3) true {} 7 {}
    = (.ok (some ⟨2, 0 + (if r1.isClaim then 1 else 0)
          + (if r3.isClaim then 1 else 0)⟩),
       { isRunning := false, exclusionList := none, concurrentLimit := 3,
         db :=
           { emails := [scenarioRow 1 "e1", scenarioRow 2 "e3"]
             nextEmailRowId := 3
             claims := [⟨.rowId 1, r1⟩, ⟨.rowId 2, r3⟩]
             runLog := [⟨7, 7, 2, 0 + (if r1.isClaim then 1 else 0)
               + (if r3.isClaim then 1 else 0), some m,
               if m == "" then "success" else "error"⟩] } }) := rfl
  rw [h0]
  simp only [hm, Bool.false_eq_true, if_false, Nat.zero_add]

/-- C3 witness: the amended scenario at a concrete message and concrete
classification results. -/
theorem processEmails_per_message_error_accumulated_witness :
    (ClaimDetectionOrchestrator.processEmails (seqFailMail "boom")
        (seqFailAnalyzer notClaimRes notClaimRes)
        (seqFailAnalyzer notClaimRes notClaimRes) true {} 7 {}).1
      = .ok (some ⟨2, 0⟩) :=
  congrArg Prod.fst (processEmails_per_message_error_accumulated "boom"
    notClaimRes notClaimRes rfl)

/-- C3 counterexample: the same three-message run through the part_000
orchestrator (processSequentially) ends with a run record of status
"success" and no error text, although message #2 failed — the claim
demands status "error" with the failure mentioned.  (Messages #1 and #3
are still persisted: processed = 2.) -/
theorem processSequentially_error_not_accumulated :
    ((ClaimDetectionOrchestratorAlt.processEmails (seqFailMail "boom")
        (seqFailAnalyzer notClaimRes notClaimRes)
        (seqFailAnalyzer notClaimRes notClaimRes) true {} 7 {}).2).db.runLog
      = [⟨7, 7, 2, 0, none, "success"⟩]
    ∧ (ClaimDetectionOrchestratorAlt.processEmails (seqFailMail "boom")
        (seqFailAnalyzer notClaimRes notClaimRes)
        (seqFailAnalyzer notClaimRes notClaimRes) true {} 7 {}).1
      = .ok (some ⟨2, 0⟩) :=
  ⟨rfl, rfl⟩

/-! ## Concurrency equivalence (C8) -/


/-- A mail source whose four operations are total: listing and detail
fetch are the given functions wrapped in success, text extraction is
`ex`. -/
def okMail (gl : Option Nat → Option Unit → Option String → List SummaryEmail)
    (glr : List SummaryEmail) (gd : String → Option String → EmailDetails)
    (ex : EmailDetails → String) : MailStubs :=
  { getEmails := fun a b c => .ok (gl a b c)
    getEmailsByDateRange := .ok glr
    getEmailDetails := fun i mb => .ok (gd i mb)
    extractTextFromEmail := ex }

/-- A completion stub that always succeeds with the given
classification function. -/
def okAnalyze (f : String → String → String → AnalysisResult) : Analyze :=
  fun t s snd => .ok (f t s snd)

/-- The claim row a total analyzer `f` produces for a pending analysis
candidate: keyed by `id || emailId`, carrying the classification of its
body, subject and sender line. -/
def pairToClaim (f : String → String → String → AnalysisResult)
    (u : UnprocessedEmail) : ClaimRow :=
  ⟨jsIdOf u, f u.bodyContent u.subject
    (u.senderName ++ " <" ++ u.senderEmail ++ ">")⟩

/-- The email row `saveEmail` inserts for a message that is not yet in
the store. -/
def freshRow (db : DB) (now : Nat) (email : EmailDetails) : EmailRow :=
  { rowid := db.nextEmailRowId, emailId := email.id,
    subject := email.subject, senderEmail := email.fromAddress.getD "",
    senderName := email.fromName.getD "",
    receivedDateTime := email.receivedDateTime,
    bodyContent := email.bodyContent, createdAt := now }

/-- saveEmail on an unseen message id appends one row and returns the
fresh row id. -/
theorem saveEmail_fresh (db : DB) (now : Nat) (email : EmailDetails)
    (hp : Database.isEmailProcessed db email.id = false) :
    Database.saveEmail db now email
      = ({ db with
            emails := db.emails ++ [freshRow db now email]
            nextEmailRowId := db.nextEmailRowId + 1 },
         db.nextEmailRowId) := by
  unfold Database.saveEmail
  unfold Database.isEmailProcessed at hp
  rw [hp]
  rfl

/-- Persisting a batch of analysis pairs appends exactly their claim
rows, in order. -/
theorem foldl_saveClaim_claims (ps : List AnalysisPair) (db : DB) :
    (ps.foldl (fun d p => Database.saveClaim d p.emailId p.result)
      db).claims = db.claims ++ ps.map (fun p => (⟨p.emailId, p.result⟩ : ClaimRow)) := by
  induction ps generalizing db with
  | nil => simp
  | cons p rest ih =>
    rw [List.foldl_cons, ih]
    simp [Database.saveClaim]
/-- The dedup check reads only the emails table. -/
theorem isEmailProcessed_congr (dbS dbC : DB) (i : String)
    (h : dbS.emails = dbC.emails) :
    Database.isEmailProcessed dbS i = Database.isEmailProcessed dbC i := by
  unfold Database.isEmailProcessed
  rw [h]

/-- Unfolding one step of the sequential fold. -/
theorem processSequentially_cons (mail : MailStubs) (aL aO : Analyze)
    (xl : ExclusionList) (useLocal : Bool) (mailbox : Option String)
    (now : Nat) (e : SummaryEmail) (rest : List SummaryEmail) (db : DB) :
    ClaimDetectionOrchestratorAlt.processSequentially mail aL aO xl
        useLocal mailbox now (e :: rest) db
      = ClaimDetectionOrchestratorAlt.processSequentially mail aL aO xl
          useLocal mailbox now rest
          (ClaimDetectionOrchestratorAlt.seqStep mail aL aO xl useLocal
            mailbox now db e) := by
  unfold ClaimDetectionOrchestratorAlt.processSequentially
  rw [List.foldl_cons]

/-- `{ d with bodyContent := t }` keeps the external id. -/
theorem bodyUpdate_id (d : EmailDetails) (t : String) :
    (EmailDetails.id { d with bodyContent := t }) = d.id := rfl

/-- The analysis candidate queued by the concurrent path. -/
def candOf (db : DB) (e : SummaryEmail) (d : EmailDetails) (t : String) :
    UnprocessedEmail :=
  { id := db.nextEmailRowId, emailId := e.id, subject := d.subject,
    bodyContent := t, senderEmail := d.fromAddress.getD "",
    senderName := d.fromName.getD "" }

/-- The store state after inserting the fresh row for `d`. -/
def dbAfterSave (db : DB) (now : Nat) (d : EmailDetails) (t : String) :
    DB :=
  { db with
      emails := db.emails ++ [freshRow db now { d with bodyContent := t }]
      nextEmailRowId := db.nextEmailRowId + 1 }

/-- One sequential step on a fresh, fetchable, excluded message. -/
theorem seqStep_fresh_excluded (mail : MailStubs) (aL aO : Analyze)
    (xl : ExclusionList) (useLocal : Bool) (mailbox : Option String)
    (now : Nat) (db : DB) (e : SummaryEmail) (d : EmailDetails)
    (hp : Database.isEmailProcessed db e.id = false)
    (hdet : mail.getEmailDetails e.id (jsOrStrOpt mailbox e.mailboxSource)
      = .ok d)
    (hfresh : Database.isEmailProcessed db d.id = false)
    (hex : shouldExcludeFromClaimDetection xl (d.fromAddress.getD "")
      d.subject = true) :
    ClaimDetectionOrchestratorAlt.seqStep mail aL aO xl useLocal mailbox
        now db e
      = Database.saveClaim
          (dbAfterSave db now d (mail.extractTextFromEmail d))
          (.rowId db.nextEmailRowId) excludedResult := by
  unfold ClaimDetectionOrchestratorAlt.seqStep
  rw [hp, if_neg Bool.false_ne_true, hdet]
  dsimp only
  rw [saveEmail_fresh db now
    { d with bodyContent := mail.extractTextFromEmail d } hfresh]
  dsimp only
  rw [if_pos hex]
  rfl

/-- One sequential step (hosted path) on a fresh, fetchable, nonempty,
non-excluded message whose analysis succeeds. -/
theorem seqStep_fresh_analyzed (mail : MailStubs) (aL aO : Analyze)
    (xl : ExclusionList) (mailbox : Option String)
    (now : Nat) (db : DB) (e : SummaryEmail) (d : EmailDetails)
    (r : AnalysisResult)
    (hp : Database.isEmailProcessed db e.id = false)
    (hdet : mail.getEmailDetails e.id (jsOrStrOpt mailbox e.mailboxSource)
      = .ok d)
    (hfresh : Database.isEmailProcessed db d.id = false)
    (hex : shouldExcludeFromClaimDetection xl (d.fromAddress.getD "")
      d.subject = false)
    (htx : (jsTrim (mail.extractTextFromEmail d) != "") = true)
    (han : aO (mail.extractTextFromEmail d) d.subject
      (d.fromName.getD "" ++ " <" ++ d.fromAddress.getD "" ++ ">")
      = .ok r) :
    ClaimDetectionOrchestratorAlt.seqStep mail aL aO xl false mailbox
        now db e
      = Database.saveClaim
          (dbAfterSave db now d (mail.extractTextFromEmail d))
          (.rowId db.nextEmailRowId) r := by
  unfold ClaimDetectionOrchestratorAlt.seqStep
  rw [hp, if_neg Bool.false_ne_true, hdet]
  dsimp only
  rw [saveEmail_fresh db now
    { d with bodyContent := mail.extractTextFromEmail d } hfresh]
  dsimp only
  rw [hex, if_neg Bool.false_ne_true, if_pos htx]
  rw [show ((if false then aL else aO) (mail.extractTextFromEmail d)
      d.subject (d.fromName.getD "" ++ " <" ++ d.fromAddress.getD ""
        ++ ">"))
    = Except.ok r from han]
  rfl

/-- One sequential step on a fresh, fetchable, non-excluded message with
empty extracted text: the email row is saved, no classification. -/
theorem seqStep_fresh_empty (mail : MailStubs) (aL aO : Analyze)
    (xl : ExclusionList) (useLocal : Bool) (mailbox : Option String)
    (now : Nat) (db : DB) (e : SummaryEmail) (d : EmailDetails)
    (hp : Database.isEmailProcessed db e.id = false)
    (hdet : mail.getEmailDetails e.id (jsOrStrOpt mailbox e.mailboxSource)
      = .ok d)
    (hfresh : Database.isEmailProcessed db d.id = false)
    (hex : shouldExcludeFromClaimDetection xl (d.fromAddress.getD "")
      d.subject = false)
    (htx : (jsTrim (mail.extractTextFromEmail d) != "") = false) :
    ClaimDetectionOrchestratorAlt.seqStep mail aL aO xl useLocal mailbox
        now db e
      = dbAfterSave db now d (mail.extractTextFromEmail d) := by
  unfold ClaimDetectionOrchestratorAlt.seqStep
  rw [hp, if_neg Bool.false_ne_true, hdet]
  dsimp only
  rw [saveEmail_fresh db now
    { d with bodyContent := mail.extractTextFromEmail d } hfresh]
  dsimp only
  rw [hex, if_neg Bool.false_ne_true, htx, if_neg Bool.false_ne_true]
  rfl

/-- One fetch-loop step on a fresh, fetchable, excluded message. -/
theorem concFetchLoop_fresh_excluded (mail : MailStubs)
    (xl : ExclusionList) (mailbox : Option String) (now : Nat)
    (e : SummaryEmail) (rest : List SummaryEmail) (db : DB)
    (acc : List UnprocessedEmail) (d : EmailDetails)
    (hp : Database.isEmailProcessed db e.id = false)
    (hdet : mail.getEmailDetails e.id (jsOrStrOpt mailbox e.mailboxSource)
      = .ok d)
    (hfresh : Database.isEmailProcessed db d.id = false)
    (hex : shouldExcludeFromClaimDetection xl (d.fromAddress.getD "")
      d.subject = true) :
    ClaimDetectionOrchestratorAlt.concFetchLoop mail xl mailbox now
        (e :: rest) db acc
      = ClaimDetectionOrchestratorAlt.concFetchLoop mail xl mailbox now
          rest
          (Database.saveClaim
            (dbAfterSave db now d (mail.extractTextFromEmail d))
            (.rowId db.nextEmailRowId) excludedResult)
          acc := by
  rw [ClaimDetectionOrchestratorAlt.concFetchLoop]
  rw [hp, if_neg Bool.false_ne_true, hdet]
  dsimp only
  rw [saveEmail_fresh db now
    { d with bodyContent := mail.extractTextFromEmail d } hfresh]
  dsimp only
  rw [if_pos hex]
  rfl

/-- One fetch-loop step on a fresh, fetchable, nonempty, non-excluded
message: the email row is saved and the message queued for analysis. -/
theorem concFetchLoop_fresh_queued (mail : MailStubs)
    (xl : ExclusionList) (mailbox : Option String) (now : Nat)
    (e : SummaryEmail) (rest : List SummaryEmail) (db : DB)
    (acc : List UnprocessedEmail) (d : EmailDetails)
    (hp : Database.isEmailProcessed db e.id = false)
    (hdet : mail.getEmailDetails e.id (jsOrStrOpt mailbox e.mailboxSource)
      = .ok d)
    (hfresh : Database.isEmailProcessed db d.id = false)
    (hex : shouldExcludeFromClaimDetection xl (d.fromAddress.getD "")
      d.subject = false)
    (htx : (jsTrim (mail.extractTextFromEmail d) != "") = true) :
    ClaimDetectionOrchestratorAlt.concFetchLoop mail xl mailbox now
        (e :: rest) db acc
      = ClaimDetectionOrchestratorAlt.concFetchLoop mail xl mailbox now
          rest (dbAfterSave db now d (mail.extractTextFromEmail d))
          (acc ++ [candOf db e d (mail.extractTextFromEmail d)]) := by
  rw [ClaimDetectionOrchestratorAlt.concFetchLoop]
  rw [hp, if_neg Bool.false_ne_true, hdet]
  dsimp only
  rw [saveEmail_fresh db now
    { d with bodyContent := mail.extractTextFromEmail d } hfresh]
  dsimp only
  rw [hex, if_neg Bool.false_ne_true, if_pos htx]
  rfl

/-- One fetch-loop step on a fresh, fetchable, non-excluded message with
empty extracted text. -/
theorem concFetchLoop_fresh_empty (mail : MailStubs)
    (xl : ExclusionList) (mailbox : Option String) (now : Nat)
    (e : SummaryEmail) (rest : List SummaryEmail) (db : DB)
    (acc : List UnprocessedEmail) (d : EmailDetails)
    (hp : Database.isEmailProcessed db e.id = false)
    (hdet : mail.getEmailDetails e.id (jsOrStrOpt mailbox e.mailboxSource)
      = .ok d)
    (hfresh : Database.isEmailProcessed db d.id = false)
    (hex : shouldExcludeFromClaimDetection xl (d.fromAddress.getD "")
      d.subject = false)
    (htx : (jsTrim (mail.extractTextFromEmail d) != "") = false) :
    ClaimDetectionOrchestratorAlt.concFetchLoop mail xl mailbox now
        (e :: rest) db acc
      = ClaimDetectionOrchestratorAlt.concFetchLoop mail xl mailbox now
          rest (dbAfterSave db now d (mail.extractTextFromEmail d))
          acc := by
  rw [ClaimDetectionOrchestratorAlt.concFetchLoop]
  rw [hp, if_neg Bool.false_ne_true, hdet]
  dsimp only
  rw [saveEmail_fresh db now
    { d with bodyContent := mail.extractTextFromEmail d } hfresh]
  dsimp only
  rw [hex, if_neg Bool.false_ne_true, htx, if_neg Bool.false_ne_true]
  rfl

/-- freshRow depends on the store only through the next row id. -/
theorem freshRow_congr (dbS dbC : DB) (now : Nat) (x : EmailDetails)
    (h : dbS.nextEmailRowId = dbC.nextEmailRowId) :
    freshRow dbS now x = freshRow dbC now x := by
  unfold freshRow
  rw [h]

/-- The walk invariant between the sequential pipeline and the
concurrent-path fetch loop over the same batch, for total stubs: the
email tables and row-id counters evolve identically, the loop never
throws, and the sequential claims are a permutation of the concurrent
claims written so far plus the analysis results still pending. -/
theorem seqConc_invariant
    (gl : Option Nat → Option Unit → Option String → List SummaryEmail)
    (glr : List SummaryEmail) (gd : String → Option String → EmailDetails)
    (ex : EmailDetails → String)
    (f : String → String → String → AnalysisResult) (aL : Analyze)
    (xl : ExclusionList) (mailbox : Option String) (now : Nat)
    (hgd : ∀ i mb, (gd i mb).id = i) :
    ∀ (emails : List SummaryEmail) (dbS dbC : DB)
      (pend : List UnprocessedEmail),
      dbS.emails = dbC.emails →
      dbS.nextEmailRowId = dbC.nextEmailRowId →
      1 ≤ dbC.nextEmailRowId →
      dbS.claims.Perm (dbC.claims ++ pend.map (pairToClaim f)) →
      ∃ dbC' pend',
        ClaimDetectionOrchestratorAlt.concFetchLoop (okMail gl glr gd ex)
          xl mailbox now emails dbC pend = (dbC', pend', none)
        ∧ (ClaimDetectionOrchestratorAlt.processSequentially
            (okMail gl glr gd ex) aL (okAnalyze f) xl false mailbox now
            emails dbS).emails = dbC'.emails
        ∧ (ClaimDetectionOrchestratorAlt.processSequentially
            (okMail gl glr gd ex) aL (okAnalyze f) xl false mailbox now
            emails dbS).nextEmailRowId = dbC'.nextEmailRowId
        ∧ 1 ≤ dbC'.nextEmailRowId
        ∧ (ClaimDetectionOrchestratorAlt.processSequentially
            (okMail gl glr gd ex) aL (okAnalyze f) xl false mailbox now
            emails dbS).claims.Perm
            (dbC'.claims ++ pend'.map (pairToClaim f)) := by
  intro emails
  induction emails with
  | nil =>
    intro dbS dbC pend h1 h2 h3 h4
    exact ⟨dbC, pend, rfl, h1, h2, h3, h4⟩
  | cons e rest ih =>
    intro dbS dbC pend h1 h2 h3 h4
    rw [processSequentially_cons]
    by_cases hp : Database.isEmailProcessed dbC e.id = true
    · have hskipS : ClaimDetectionOrchestratorAlt.seqStep
          (okMail gl glr gd ex) aL (okAnalyze f) xl false mailbox now
          dbS e = dbS := by
        unfold ClaimDetectionOrchestratorAlt.seqStep
        rw [isEmailProcessed_congr dbS dbC e.id h1, if_pos hp]
      have hskipC : ClaimDetectionOrchestratorAlt.concFetchLoop
          (okMail gl glr gd ex) xl mailbox now (e :: rest) dbC pend
          = ClaimDetectionOrchestratorAlt.concFetchLoop
              (okMail gl glr gd ex) xl mailbox now rest dbC pend := by
        rw [ClaimDetectionOrchestratorAlt.concFetchLoop, if_pos hp]
      rw [hskipS, hskipC]
      exact ih dbS dbC pend h1 h2 h3 h4
    · have hpC : Database.isEmailProcessed dbC e.id = false :=
        Bool.eq_false_iff.mpr hp
      have hpS : Database.isEmailProcessed dbS e.id = false := by
        rw [isEmailProcessed_congr dbS dbC e.id h1]
        exact hpC
      set d := gd e.id (jsOrStrOpt mailbox e.mailboxSource) with hd
      have hdet : (okMail gl glr gd ex).getEmailDetails e.id
          (jsOrStrOpt mailbox e.mailboxSource) = .ok d := rfl
      have hdid : d.id = e.id := by
        rw [hd]
        exact hgd e.id (jsOrStrOpt mailbox e.mailboxSource)
      have hfreshS : Database.isEmailProcessed dbS d.id = false := by
        rw [hdid]
        exact hpS
      have hfreshC : Database.isEmailProcessed dbC d.id = false := by
        rw [hdid]
        exact hpC
      have hemails : (dbAfterSave dbS now d
            ((okMail gl glr gd ex).extractTextFromEmail d)).emails
          = (dbAfterSave dbC now d
            ((okMail gl glr gd ex).extractTextFromEmail d)).emails := by
        show dbS.emails ++ [freshRow dbS now _]
          = dbC.emails ++ [freshRow dbC now _]
        rw [h1, freshRow_congr dbS dbC now _ h2]
      have hnext2 : (dbAfterSave dbS now d
            ((okMail gl glr gd ex).extractTextFromEmail d)).nextEmailRowId
          = (dbAfterSave dbC now d
            ((okMail gl glr gd ex).extractTextFromEmail d)).nextEmailRowId := by
        show dbS.nextEmailRowId + 1 = dbC.nextEmailRowId + 1
        rw [h2]
      by_cases hex : shouldExcludeFromClaimDetection xl
          (d.fromAddress.getD "") d.subject = true
      · rw [seqStep_fresh_excluded (okMail gl glr gd ex) aL (okAnalyze f)
            xl false mailbox now dbS e d hpS hdet hfreshS hex,
          concFetchLoop_fresh_excluded (okMail gl glr gd ex) xl mailbox
            now e rest dbC pend d hpC hdet hfreshC hex]
        refine ih _ _ pend ?_ ?_ ?_ ?_
        · exact hemails
        · exact hnext2
        · show 1 ≤ dbC.nextEmailRowId + 1
          omega
        · show (dbS.claims
              ++ [(⟨.rowId dbS.nextEmailRowId, excludedResult⟩ : ClaimRow)]).Perm
            ((dbC.claims
              ++ [(⟨.rowId dbC.nextEmailRowId, excludedResult⟩ : ClaimRow)])
              ++ pend.map (pairToClaim f))
          rw [h2]
          refine (h4.append_right
            [(⟨.rowId dbC.nextEmailRowId, excludedResult⟩ : ClaimRow)]).trans ?_
          rw [List.append_assoc, List.append_assoc]
          exact List.Perm.append_left _ List.perm_append_comm
      · have hexF : shouldExcludeFromClaimDetection xl
            (d.fromAddress.getD "") d.subject = false :=
          Bool.eq_false_iff.mpr hex
        by_cases htx : (jsTrim ((okMail gl glr gd ex).extractTextFromEmail
            d) != "") = true
        · have han : okAnalyze f
              ((okMail gl glr gd ex).extractTextFromEmail d) d.subject
              (d.fromName.getD "" ++ " <" ++ d.fromAddress.getD "" ++ ">")
              = .ok (f ((okMail gl glr gd ex).extractTextFromEmail d)
                  d.subject (d.fromName.getD "" ++ " <"
                    ++ d.fromAddress.getD "" ++ ">")) := rfl
          rw [seqStep_fresh_analyzed (okMail gl glr gd ex) aL
              (okAnalyze f) xl mailbox now dbS e d _ hpS hdet hfreshS
              hexF htx han,
            concFetchLoop_fresh_queued (okMail gl glr gd ex) xl mailbox
              now e rest dbC pend d hpC hdet hfreshC hexF htx]
          have hpair : (⟨.rowId dbS.nextEmailRowId,
              f ((okMail gl glr gd ex).extractTextFromEmail d) d.subject
                (d.fromName.getD "" ++ " <" ++ d.fromAddress.getD ""
                  ++ ">")⟩ : ClaimRow)
              = pairToClaim f (candOf dbC e d
                  ((okMail gl glr gd ex).extractTextFromEmail d)) := by
            unfold pairToClaim jsIdOf candOf
            rw [h2]
            dsimp only
            rw [if_pos (by omega : dbC.nextEmailRowId ≠ 0)]
          refine ih _ _ (pend ++ [candOf dbC e d
              ((okMail gl glr gd ex).extractTextFromEmail d)]) ?_ ?_ ?_ ?_
          · exact hemails
          · exact hnext2
          · show 1 ≤ dbC.nextEmailRowId + 1
            omega
          · show (dbS.claims ++ [(⟨.rowId dbS.nextEmailRowId,
                f ((okMail gl glr gd ex).extractTextFromEmail d) d.subject
                  (d.fromName.getD "" ++ " <" ++ d.fromAddress.getD ""
                    ++ ">")⟩ : ClaimRow)]).Perm
              (dbC.claims ++ (pend ++ [candOf dbC e d
                ((okMail gl glr gd ex).extractTextFromEmail d)]).map
                (pairToClaim f))
            rw [hpair, List.map_append, ← List.append_assoc]
            exact h4.append_right _
        · have htxF : (jsTrim ((okMail gl glr
              gd ex).extractTextFromEmail d) != "") = false :=
            Bool.eq_false_iff.mpr htx
          rw [seqStep_fresh_empty (okMail gl glr gd ex) aL (okAnalyze f)
              xl false mailbox now dbS e d hpS hdet hfreshS hexF htxF,
            concFetchLoop_fresh_empty (okMail gl glr gd ex) xl mailbox
              now e rest dbC pend d hpC hdet hfreshC hexF htxF]
          refine ih _ _ pend ?_ ?_ ?_ ?_
          · exact hemails
          · exact hnext2
          · show 1 ≤ dbC.nextEmailRowId + 1
            omega
          · exact h4

/-- logProcessingRun touches only the run log. -/
theorem logProcessingRun_claims (db : DB) (s c p cd : Nat)
    (e : Option String) :
    (Database.logProcessingRun db s c p cd e).claims = db.claims := rfl

/-- Re-pairing the dispatcher output of a total analyzer gives exactly the
claim row the sequential path writes. -/
theorem pairOf_analyzeOne (f : String → String → String → AnalysisResult)
    (u : UnprocessedEmail) :
    (⟨(OpenAIService.analyzeOne (okAnalyze f) u).emailId,
      (OpenAIService.analyzeOne (okAnalyze f) u).result⟩ : ClaimRow)
      = pairToClaim f u := rfl

/-- processEmails with an empty selected batch leaves the claims table
unchanged, for any concurrency setting. -/
theorem processEmails_empty_claims (mail : MailStubs) (aL aO : Analyze)
    (sv : Bool) (o : ProcessOptions) (c : Nat) (now : Nat) (st : OrchState)
    (L : List SummaryEmail)
    (hrun : st.isRunning = false) (hlocal : o.useLocalLLM = false)
    (hsel : selectEmails mail { o with concurrency := some c } st.db
      = .ok L)
    (hL : L.isEmpty = true) :
    (ClaimDetectionOrchestratorAlt.processEmails mail aL aO sv
        { o with concurrency := some c } now st).2.db.claims
      = st.db.claims := by
  unfold ClaimDetectionOrchestratorAlt.processEmails
  rw [hrun, if_neg Bool.false_ne_true]
  dsimp only
  rw [hlocal] at hsel
  rw [hlocal, Bool.false_and, if_neg Bool.false_ne_true, hsel]
  dsimp only
  rw [hL, if_pos rfl]
  rfl

/-- processEmails with concurrency 1 and a hosted backend runs the
sequential path: the final claims table is the sequential one. -/
theorem processEmails_seq_claims (mail : MailStubs) (aL aO : Analyze)
    (sv : Bool) (o : ProcessOptions) (now : Nat) (st : OrchState)
    (L : List SummaryEmail)
    (hrun : st.isRunning = false) (hlocal : o.useLocalLLM = false)
    (hsel : selectEmails mail { o with concurrency := some 1 } st.db
      = .ok L)
    (hL : L.isEmpty = false) :
    (ClaimDetectionOrchestratorAlt.processEmails mail aL aO sv
        { o with concurrency := some 1 } now st).2.db.claims
      = (ClaimDetectionOrchestratorAlt.processSequentially mail aL aO
          st.exclusionList false o.emailAddress now L st.db).claims := by
  unfold ClaimDetectionOrchestratorAlt.processEmails
  rw [hrun, if_neg Bool.false_ne_true]
  dsimp only
  rw [hlocal] at hsel
  rw [hlocal, Bool.false_and, if_neg Bool.false_ne_true, hsel]
  dsimp only
  rw [hL, if_neg Bool.false_ne_true,
    if_neg (show ¬((!false && decide ((1 : Nat) < 1)) = true) by decide)]
  rfl

/-- processEmails with concurrency 5 and a hosted backend runs the
concurrent path with limit 5: the final claims table is the one
processConcurrently returns. -/
theorem processEmails_conc_claims (mail : MailStubs) (aL aO : Analyze)
    (sv : Bool) (o : ProcessOptions) (now : Nat) (st : OrchState)
    (L : List SummaryEmail) (dbC : DB)
    (hrun : st.isRunning = false) (hlocal : o.useLocalLLM = false)
    (hsel : selectEmails mail { o with concurrency := some 5 } st.db
      = .ok L)
    (hL : L.isEmpty = false)
    (hpc : ClaimDetectionOrchestratorAlt.processConcurrently mail aO
        st.exclusionList (max 1 5) o.emailAddress now L st.db
      = (dbC, none)) :
    (ClaimDetectionOrchestratorAlt.processEmails mail aL aO sv
        { o with concurrency := some 5 } now st).2.db.claims
      = dbC.claims := by
  unfold ClaimDetectionOrchestratorAlt.processEmails
  rw [hrun, if_neg Bool.false_ne_true]
  dsimp only
  rw [hlocal] at hsel
  rw [hlocal, Bool.false_and, if_neg Bool.false_ne_true, hsel]
  dsimp only
  rw [hL, if_neg Bool.false_ne_true,
    if_pos (show (((5 : Nat) != 0) && !false) = true by decide),
    if_pos (show ((!false && decide ((1 : Nat) < 5)) = true) by decide),
    hpc]
  rfl

/-- C8: for a fixed batch and deterministic total completion stubs, a run
of the part_000 orchestrator with concurrency 1 (sequential path) and a
run with concurrency 5 (chunked-concurrent path) persist the same
multiset of classification rows — the claims tables of the two final
states are permutations of each other.  `hgd` says the stubbed detail
fetch returns the record of the requested message id, as the real mail
source does; `hnext` is the row-id invariant every store reachable from
`createTables` satisfies. -/
theorem concurrency_equivalence
    (gl : Option Nat → Option Unit → Option String → List SummaryEmail)
    (glr : List SummaryEmail) (gd : String → Option String → EmailDetails)
    (ex : EmailDetails → String)
    (f : String → String → String → AnalysisResult) (aL : Analyze)
    (sv : Bool) (o : ProcessOptions) (now : Nat) (st : OrchState)
    (hrun : st.isRunning = false) (hlocal : o.useLocalLLM = false)
    (hnext : 1 ≤ st.db.nextEmailRowId)
    (hgd : ∀ i mb, (gd i mb).id = i) :
    ((ClaimDetectionOrchestratorAlt.processEmails (okMail gl glr gd ex) aL
        (okAnalyze f) sv { o with concurrency := some 1 } now
        st).2.db.claims).Perm
      ((ClaimDetectionOrchestratorAlt.processEmails (okMail gl glr gd ex) aL
        (okAnalyze f) sv { o with concurrency := some 5 } now
        st).2.db.claims) := by
  obtain ⟨L, hsel⟩ : ∃ L, selectEmails (okMail gl glr gd ex) o st.db
      = .ok L := by
    unfold selectEmails
    repeat' split
    all_goals exact ⟨_, rfl⟩
  have hsel1 : selectEmails (okMail gl glr gd ex)
      { o with concurrency := some 1 } st.db = .ok L := hsel
  have hsel5 : selectEmails (okMail gl glr gd ex)
      { o with concurrency := some 5 } st.db = .ok L := hsel
  cases hL : L.isEmpty with
  | true =>
    rw [processEmails_empty_claims (okMail gl glr gd ex) aL (okAnalyze f)
        sv o 1 now st L hrun hlocal hsel1 hL,
      processEmails_empty_claims (okMail gl glr gd ex) aL (okAnalyze f)
        sv o 5 now st L hrun hlocal hsel5 hL]
  | false =>
    obtain ⟨dbC2, pend2, hloop, hem, hnx, hle, hperm⟩ :=
      seqConc_invariant gl glr gd ex f aL st.exclusionList o.emailAddress
        now hgd L st.db st.db [] rfl rfl hnext (by simp)
    rw [processEmails_seq_claims (okMail gl glr gd ex) aL (okAnalyze f)
        sv o now st L hrun hlocal hsel1 hL]
    cases hpe : pend2.isEmpty with
    | true =>
      have hpc : ClaimDetectionOrchestratorAlt.processConcurrently
          (okMail gl glr gd ex) (okAnalyze f) st.exclusionList (max 1 5)
          o.emailAddress now L st.db = (dbC2, none) := by
        unfold ClaimDetectionOrchestratorAlt.processConcurrently
        rw [hloop]
        dsimp only
        rw [hpe, if_pos rfl]
      rw [processEmails_conc_claims (okMail gl glr gd ex) aL (okAnalyze f)
          sv o now st L dbC2 hrun hlocal hsel5 hL hpc]
      rw [List.isEmpty_iff.mp hpe] at hperm
      simpa using hperm
    | false =>
      have hpc : ClaimDetectionOrchestratorAlt.processConcurrently
          (okMail gl glr gd ex) (okAnalyze f) st.exclusionList (max 1 5)
          o.emailAddress now L st.db
          = ((OpenAIService.analyzeEmailsConcurrently (okAnalyze f)
                (max 1 5) pend2).foldl
              (fun d p => Database.saveClaim d p.emailId p.result) dbC2,
             none) := by
        unfold ClaimDetectionOrchestratorAlt.processConcurrently
        rw [hloop]
        dsimp only
        rw [hpe, if_neg Bool.false_ne_true]
      rw [processEmails_conc_claims (okMail gl glr gd ex) aL (okAnalyze f)
          sv o now st L _ hrun hlocal hsel5 hL hpc]
      rw [foldl_saveClaim_claims,
        analyzeEmailsConcurrently_eq_map (okAnalyze f) (max 1 5)
          (by decide) pend2,
        List.map_map]
      have hmap : List.map
          ((fun p => (⟨p.emailId, p.result⟩ : ClaimRow))
            ∘ OpenAIService.analyzeOne (okAnalyze f)) pend2
          = List.map (pairToClaim f) pend2 :=
        List.map_congr_left (fun u _ => pairOf_analyzeOne f u)
      rw [hmap]
      exact hperm

/-- C8 witness: three fixed messages, a constant classifier, an idle
store, concurrency 1 against concurrency 5. -/
theorem concurrency_equivalence_witness :
    ((ClaimDetectionOrchestratorAlt.processEmails
        (okMail (fun _ _ _ => threeEmails) [] (fun i _ => scenarioDetails i)
          (fun _ => "please help"))
        (fun _ _ _ => .error "unused")
        (okAnalyze (fun _ _ _ => notClaimRes)) true
        { ({} : ProcessOptions) with concurrency := some 1 } 7
        {}).2.db.claims).Perm
      ((ClaimDetectionOrchestratorAlt.processEmails
        (okMail (fun _ _ _ => threeEmails) [] (fun i _ => scenarioDetails i)
          (fun _ => "please help"))
        (fun _ _ _ => .error "unused")
        (okAnalyze (fun _ _ _ => notClaimRes)) true
        { ({} : ProcessOptions) with concurrency := some 5 } 7
        {}).2.db.claims) :=
  concurrency_equivalence (fun _ _ _ => threeEmails) []
    (fun i _ => scenarioDetails i) (fun _ => "please help")
    (fun _ _ _ => notClaimRes) (fun _ _ _ => .error "unused") true
    {} 7 {} rfl rfl (Nat.le_refl 1) (fun _ _ => rfl)

end EmailClaimDetector
